import Mathlib

/-!
Shallow embedding of the dvd-auto-ripper pipeline core.

The embedded code comes from:
* `web/helpers/locks.py` — lock-file inspection (`check_lock_file`,
  `get_status`, `find_process_for_lock`) and the `STATE_CONFIG` table;
* `web/helpers/processes.py` — `revert_state_file`,
  `kill_process_with_cleanup`, `cancel_queue_item`;
* `web/pages/api_cluster.py` — `api_accept_job`, `api_job_complete`,
  `api_confirm_files`;
* `web/helpers/pipeline.py` — `get_queue_items` pagination.

The filesystem is modelled as a list of existing paths (plus, for the
staging directory of the cluster API, an association of file names to
parsed metadata).  `os.path.exists("/proc/<pid>")` is modelled by a
function `String → Bool` applied to the text written after `/proc/`,
so that the fact that `/proc/` itself (empty suffix) and entries such
as `/proc/self` exist on a live Linux host can be expressed.
`os.remove`/`os.rename` failures (permission errors) are modelled by
Boolean oracles indexed by the source path.  `time.sleep` and the
`os.kill` escalation have no filesystem-observable effect and produce
at most a message, which is what the embedding records.
-/

/-- Split a character list at the last occurrence of `c`: returns the
part before and the part after the last `c`, or `none` when `c` does
not occur.  Models Python's `str.rsplit(c, 1)` and `os.path.basename`. -/
def lastSplit (c : Char) : List Char → Option (List Char × List Char)
  | [] => none
  | a :: rest =>
    match lastSplit c rest with
    | some (b, aft) => some (a :: b, aft)
    | none => if a = c then some ([], rest) else none

/-- `s.rsplit('.', 1)[0]`: everything before the last dot (the whole
string when there is no dot). -/
def pyRsplitBase (s : String) : String :=
  match lastSplit '.' s.data with
  | some (b, _) => ⟨b⟩
  | none => s

/-- `s.rsplit('.', 1)[-1]`: everything after the last dot (the whole
string when there is no dot). -/
def pyRsplitExt (s : String) : String :=
  match lastSplit '.' s.data with
  | some (_, a) => ⟨a⟩
  | none => s

/-- `os.path.basename`: everything after the last slash. -/
def pyBasename (s : String) : String :=
  match lastSplit '/' s.data with
  | some (_, a) => ⟨a⟩
  | none => s

/-- Boolean list-prefix test (the embedding's own, to control
unfolding in proofs). -/
def isPre : List Char → List Char → Bool
  | [], _ => true
  | _ :: _, [] => false
  | a :: as, b :: bs => a == b && isPre as bs

/-- Boolean list-suffix test. -/
def isSuf (pat l : List Char) : Bool :=
  isPre pat.reverse l.reverse

/-- Boolean substring test: does `l` contain `pat` as a contiguous
substring?  Models Python's `pat in s`. -/
def containsSub (pat : List Char) : List Char → Bool
  | [] => pat.isEmpty
  | a :: rest => isPre pat (a :: rest) || containsSub pat rest

/-- Drop leading whitespace characters. -/
def stripLeading : List Char → List Char
  | [] => []
  | c :: rest => if c.isWhitespace then stripLeading rest else c :: rest

/-- Python's `str.strip()`: drop whitespace at both ends. -/
def pyStrip (s : String) : String :=
  ⟨(stripLeading (stripLeading s.data).reverse).reverse⟩

/-- Parse a non-empty all-digit character list as a natural number. -/
def pyParseNat (l : List Char) : Option Nat :=
  if l ≠ [] ∧ l.all (fun c => c.isDigit) then
    some (l.foldl (fun acc c => acc * 10 + (c.toNat - 48)) 0)
  else none

/-- `os.path.join(a, b)` for POSIX paths: `b` when `b` is absolute,
otherwise `a`, a slash unless `a` already ends with one, then `b`. -/
def pyJoin (a b : String) : String :=
  if isPre ['/'] b.data then b
  else if isSuf ['/'] a.data then a ++ b
  else a ++ "/" ++ b

/-- `helpers/pipeline.py`: `STAGING_DIR` (default value; the
environment override is not modelled). -/
def STAGING_DIR : String := "/var/tmp/dvd-rips"

/-- `helpers/locks.py`: `LOCK_DIR`. -/
def LOCK_DIR : String := "/run/dvd-ripper"

/-- `helpers/locks.py`: `LOCK_FILES`. -/
def LOCK_FILES : List (String × String) :=
  [("encoder", "/run/dvd-ripper/encoder.lock"),
   ("transfer", "/run/dvd-ripper/transfer.lock"),
   ("distribute", "/run/dvd-ripper/distribute.lock")]

/-- One `STATE_CONFIG` entry: guarding lock family and revert target. -/
structure StateCfg where
  lock : Option String
  revert_to : Option String
deriving DecidableEq, Repr

/-- `helpers/locks.py`: `STATE_CONFIG`. -/
def STATE_CONFIG : List (String × StateCfg) :=
  [("iso-creating", ⟨some "iso", none⟩),
   ("iso-ready", ⟨none, none⟩),
   ("distributing", ⟨some "distribute", some "iso-ready"⟩),
   ("encoding", ⟨some "encoder", some "iso-ready"⟩),
   ("encoded-ready", ⟨none, none⟩),
   ("transferring", ⟨some "transfer", some "encoded-ready"⟩)]

/-- State of one on-disk lock file: whether the path exists, whether
opening/reading it succeeds, and its text content. -/
structure LockFileSt where
  present : Bool
  readOk : Bool
  content : String
deriving DecidableEq, Repr

/-- Result dictionary of `LockManager.check_lock_file`. -/
structure LockCheck where
  active : Bool
  pid : Option String
deriving DecidableEq, Repr

/-- `LockManager.check_lock_file`.  `procPathExists s` models
`os.path.exists("/proc/" ++ s)`.  Note the source never converts the
file content to an integer (its `except ValueError` clause is dead
code): the stripped text is interpolated into the `/proc/` path as is. -/
def check_lock_file (procPathExists : String → Bool) (lf : LockFileSt) : LockCheck :=
  if lf.present then
    if lf.readOk then
      let pid := pyStrip lf.content
      if procPathExists pid then ⟨true, some pid⟩ else ⟨false, none⟩
    else ⟨false, none⟩
  else ⟨false, none⟩

/-- A sample of `os.path.exists("/proc/" ++ ·)` on a live Linux host:
process 1 is running, and the non-pid entries `/proc/` itself (empty
suffix) and `/proc/self` exist. -/
def linuxProcSample : String → Bool :=
  fun s => s = "" || s = "1" || s = "self"

/-- One sharded family block of `LockManager.get_status`: per-shard
check results, with the legacy singleton folded in under `legacyKey`
only when its check is active. -/
def family_slots (procPathExists : String → Bool) (legacyKey : String)
    (shards : List (String × LockFileSt)) (legacy : LockFileSt) :
    List (String × LockCheck) :=
  let slots := shards.map (fun p => (p.1, check_lock_file procPathExists p.2))
  let legacySt := check_lock_file procPathExists legacy
  if legacySt.active then slots ++ [(legacyKey, legacySt)] else slots

/-- Combined family flag: any slot active. -/
def any_slot_active (slots : List (String × LockCheck)) : Bool :=
  slots.any (fun p => p.2.active)

/-- Combined status of one sharded family in `get_status`'s result. -/
structure FamilyStatus where
  active : Bool
  pid : Option String
  slots : List (String × LockCheck)
deriving DecidableEq, Repr

/-- The on-disk lock files `get_status` inspects: the two singleton
locks, the present shard locks of each family (shard name, state), and
each family's legacy singleton file. -/
structure StatusInput where
  distribute : LockFileSt
  transferShards : List (String × LockFileSt)
  transferLegacy : LockFileSt
  encoderShards : List (String × LockFileSt)
  encoderLegacy : LockFileSt
  isoDrives : List (String × LockFileSt)
  isoLegacy : LockFileSt
  archive : LockFileSt
deriving Repr

/-- Result of `LockManager.get_status`. -/
structure PipelineStatus where
  distribute : LockCheck
  transfer : FamilyStatus
  encoder : FamilyStatus
  iso : FamilyStatus
  archive : LockCheck
deriving DecidableEq, Repr

/-- `LockManager.get_status`.  The iso family's legacy pseudo-shard is
keyed `"default"` in the source, the transfer and encoder ones
`"legacy"`. -/
def get_status (procPathExists : String → Bool) (inp : StatusInput) : PipelineStatus :=
  let tSlots := family_slots procPathExists "legacy" inp.transferShards inp.transferLegacy
  let eSlots := family_slots procPathExists "legacy" inp.encoderShards inp.encoderLegacy
  let iSlots := family_slots procPathExists "default" inp.isoDrives inp.isoLegacy
  { distribute := check_lock_file procPathExists inp.distribute
    transfer := ⟨any_slot_active tSlots, none, tSlots⟩
    encoder := ⟨any_slot_active eSlots, none, eSlots⟩
    iso := ⟨any_slot_active iSlots, none, iSlots⟩
    archive := check_lock_file procPathExists inp.archive }

/-- Metadata fields `cancel_queue_item` reads from a record
(`iso_path`, `mkv_path`); a corrupt or unreadable record parses to
both `none`, mirroring the `except` fallback to `{}`. -/
structure CMeta where
  iso_path : Option String
  mkv_path : Option String
deriving DecidableEq, Repr

/-- Outcome of `os.kill(pid, SIGTERM)` for a given pid. -/
inductive KillOutcome
  | ok
  | noSuchProcess
  | permissionDenied
deriving DecidableEq, Repr

/-- System state seen by the process-supervisor functions: the set of
existing paths, per-path record metadata and lock-file content, the
`/proc` table for integer pids, and failure oracles for `os.remove`,
`os.rename` (keyed by source path) and `os.kill`. -/
structure SysState where
  files : List String
  metaOf : String → CMeta
  lockContent : String → String
  procAlive : Nat → Bool
  removeFails : String → Bool
  renameFails : String → Bool
  killRes : Nat → KillOutcome

/-- Remove a path (all occurrences; a filesystem holds one file per
path). -/
def fsRemove (files : List String) (p : String) : List String :=
  files.filter (fun q => q != p)

/-- Create or overwrite a path. -/
def fsAdd (files : List String) (p : String) : List String :=
  p :: fsRemove files p

/-- `int(s.strip())` restricted to the nonnegative numerals found in
lock files; any other content models the `ValueError` branch (an
unreadable file is modelled by non-numeric content, taking the same
`except` branch as `IOError` does in the source). -/
def pyIntNat (s : String) : Option Nat :=
  pyParseNat (pyStrip s).data

/-- Does `p` match the glob `/run/dvd-ripper/iso-*.lock`?  `*` matches
a possibly empty run of non-slash characters. -/
def isIsoShardLock (p : String) : Bool :=
  let l := p.data
  let pre := "/run/dvd-ripper/iso-".data
  let suf := ".lock".data
  isPre pre l && isSuf suf (l.drop pre.length) &&
    decide (pre.length + suf.length ≤ l.length) &&
    !(((l.drop pre.length).take (l.length - pre.length - suf.length)).contains '/')

/-- First element of `l` on which `f` yields `some`. -/
def firstSome {α β : Type} (f : α → Option β) : List α → Option β
  | [] => none
  | a :: rest =>
    match f a with
    | some b => some b
    | none => firstSome f rest

/-- Read the lock file at `path` and return its pid when that process
is alive: the shared loop body of `LockManager.find_process_for_lock`. -/
def lockLivePid (st : SysState) (path : String) : Option Nat :=
  match pyIntNat (st.lockContent path) with
  | some pid => if st.procAlive pid then some pid else none
  | none => none

/-- `LockManager.find_process_for_lock`. -/
def find_process_for_lock (st : SysState) (lock_stage : String) : Option Nat :=
  if lock_stage = "iso" then
    let isoLocks := st.files.filter isIsoShardLock
    let legacy := "/run/dvd-ripper/iso.lock"
    let isoLocks := if legacy ∈ st.files then isoLocks ++ [legacy] else isoLocks
    firstSome (fun lf => lockLivePid st lf) isoLocks
  else
    match LOCK_FILES.lookup lock_stage with
    | none => none
    | some lf => if lf ∈ st.files then lockLivePid st lf else none

/-- `ProcessManager.revert_state_file`.  `none` models a raised
exception (source path missing, or the remove/rename itself failing);
otherwise the new file list, the new path (`none` when the record was
removed) and the audit message. -/
def revert_state_file (rmF rnF : String → Bool) (files : List String)
    (path : String) (new_state : Option String) :
    Option (List String × Option String × String) :=
  if path ∈ files then
    match new_state with
    | none =>
      if rmF path then none
      else some (fsRemove files path, none, "Removed " ++ pyBasename path)
    | some st =>
      let nf := pyRsplitBase path ++ "." ++ st
      if rnF path then none
      else some (fsAdd (fsRemove files path) nf, some nf,
        "Reverted " ++ pyBasename path ++ " to " ++ st)
  else none

/-- One recognized pipeline process, as classified by
`SystemHealth.get_dvd_processes` (pid and type string). -/
structure DvdProc where
  pid : Nat
  type : String
deriving DecidableEq, Repr

/-- `PROCESS_TO_STATE` in `kill_process_with_cleanup`. -/
def PROCESS_TO_STATE : List (String × String) :=
  [("encoder", "encoding"), ("iso", "iso-creating"),
   ("transfer", "transferring"), ("distribute", "distributing")]

/-- Does `p` match the staging glob `/var/tmp/dvd-rips/*.{state}`?
`*` matches a run of non-slash characters that does not start with a
dot (glob skips hidden files). -/
def isStagingStateFile (state : String) (p : String) : Bool :=
  let l := p.data
  let pre := "/var/tmp/dvd-rips/".data
  let suf := ("." ++ state).data
  isPre pre l && isSuf suf (l.drop pre.length) &&
    decide (pre.length + suf.length ≤ l.length) &&
    !((l.drop pre.length).take (l.length - pre.length - suf.length)).contains '/' &&
    ((l.drop pre.length).head? != some '.')

/-- All record paths the glob `STAGING_DIR/*.{stage}` returns: the
State Store's per-stage enumeration, restricted to the paths (metadata
parsing is separate). -/
def enumerate_stage (files : List String) (stage : String) : List String :=
  files.filter (isStagingStateFile stage)

/-- The record-revert loop of `kill_process_with_cleanup`: revert every
pre-gathered record of the stage, best effort, collecting messages. -/
def revertAll (rmF rnF : String → Bool) (revert_to : Option String) :
    List String → List String → List String × String
  | files, [] => (files, "")
  | files, sf :: rest =>
    match revert_state_file rmF rnF files sf revert_to with
    | some (files2, _, msg) =>
      let r := revertAll rmF rnF revert_to files2 rest
      (r.1, " " ++ msg ++ "." ++ r.2)
    | none =>
      let r := revertAll rmF rnF revert_to files rest
      (r.1, " Failed to clean up " ++ pyBasename sf ++ r.2)

/-- `ProcessManager.kill_process_with_cleanup`.  `procs` is the result
of `SystemHealth.get_dvd_processes()`.  The fixed grace wait and the
`os.kill(pid, 0)` / SIGKILL escalation have no filesystem-observable
effect and are therefore not state-relevant in the embedding. -/
def kill_process_with_cleanup (st : SysState) (procs : List DvdProc)
    (pid : Nat) : SysState × Bool × String :=
  match procs.find? (fun p => p.pid == pid) with
  | none => (st, false, "PID " ++ toString pid ++ " is not a DVD ripper process")
  | some target =>
    let process_type := target.type
    let state_name := PROCESS_TO_STATE.lookup process_type
    let config : StateCfg := match state_name with
      | some sn => (STATE_CONFIG.lookup sn).getD ⟨none, none⟩
      | none => ⟨none, none⟩
    let lock_file : Option String := match config.lock with
      | some ls => LOCK_FILES.lookup ls
      | none => none
    match st.killRes pid with
    | .noSuchProcess => (st, false, "Process " ++ toString pid ++ " not found")
    | .permissionDenied =>
      (st, false, "Permission denied to kill PID " ++ toString pid)
    | .ok =>
      let files1 := match lock_file with
        | some lf =>
          if lf ∈ st.files && !(st.removeFails lf) then fsRemove st.files lf
          else st.files
        | none => st.files
      match state_name with
      | none =>
        ({ st with files := files1 }, true,
          "Killed PID " ++ toString pid ++ " (" ++ process_type ++ ").")
      | some sn =>
        let found := files1.filter (isStagingStateFile sn)
        let r := revertAll st.removeFails st.renameFails config.revert_to files1 found
        ({ st with files := r.1 }, true,
          "Killed PID " ++ toString pid ++ " (" ++ process_type ++ ")." ++ r.2)

/-- The per-device iso lock cleanup loop in `cancel_queue_item`:
remove each `iso-*.lock` whose recorded pid equals the killed pid; all
failures pass silently. -/
def cleanIsoShards (rmF : String → Bool) (lockContent : String → String)
    (killedPid : Option Nat) : List String → List String → List String
  | [], files => files
  | lf :: rest, files =>
    let files2 := match pyIntNat (lockContent lf), killedPid with
      | some lp, some kp =>
        if lp = kp && !(rmF lf) then fsRemove files lf else files
      | _, _ => files
    cleanIsoShards rmF lockContent killedPid rest files2

/-- The lock-file cleanup block of `cancel_queue_item` (runs only when
the stage's `config["lock"]` is set; a `None` lock leaves the files
untouched). -/
def lockCleanup (st : SysState) (lock : Option String)
    (killedPid : Option Nat) : List String :=
  if lock = some "iso" then
    let cleaned := cleanIsoShards st.removeFails st.lockContent killedPid
      (st.files.filter isIsoShardLock) st.files
    let legacy := "/run/dvd-ripper/iso.lock"
    if legacy ∈ cleaned && !(st.removeFails legacy) then fsRemove cleaned legacy
    else cleaned
  else
    match lock.bind (fun ls => LOCK_FILES.lookup ls) with
    | some lf =>
      if lf ∈ st.files && !(st.removeFails lf) then fsRemove st.files lf
      else st.files
    | none => st.files

/-- One best-effort artifact removal of `cancel_queue_item`
(`iso_path`/`mkv_path`): remove the file when the metadata names it,
it is non-empty and present; a failure yields `failMsg` when the block
reports failures (the `delete_files` blocks do, the partial-file
blocks pass silently). -/
def removeArtifact (rmF : String → Bool) (files : List String)
    (path : Option String) (okMsg : String) (failMsg : Option String) :
    List String × List String :=
  match path with
  | some p =>
    if p ≠ "" ∧ p ∈ files then
      if rmF p then (files, failMsg.toList)
      else (fsRemove files p, [okMsg])
    else (files, [])
  | none => (files, [])

/-- The partial-file removal block of `cancel_queue_item` for active
stages. -/
def partialCleanup (st : SysState) (state : String) (metadata : CMeta)
    (files1 : List String) : List String × List String :=
  if state = "iso-creating" then
    removeArtifact st.removeFails files1 metadata.iso_path "Removed partial ISO" none
  else if state = "encoding" then
    removeArtifact st.removeFails files1 metadata.mkv_path "Removed partial MKV" none
  else (files1, [])

/-- The optional `delete_files` removal block of `cancel_queue_item`
for queued stages. -/
def deleteFilesCleanup (st : SysState) (state : String) (metadata : CMeta)
    (delete_files : Bool) (files2 : List String) : List String × List String :=
  if delete_files then
    if state = "iso-ready" then
      removeArtifact st.removeFails files2 metadata.iso_path
        "Deleted ISO file" (some "Could not delete ISO: error")
    else if state = "encoded-ready" then
      removeArtifact st.removeFails files2 metadata.mkv_path
        "Deleted MKV file" (some "Could not delete MKV: error")
    else (files2, [])
  else (files2, [])

/-- The artifact-cleanup phase of `cancel_queue_item`: lock cleanup,
then partial-file removal for active stages, then the optional
`delete_files` removal for queued stages; returns the resulting files
with the collected messages. -/
def cancelCleanupFiles (st : SysState) (state : String) (config : StateCfg)
    (metadata : CMeta) (killedPid : Option Nat) (delete_files : Bool) :
    List String × List String :=
  let files1 := lockCleanup st config.lock killedPid
  let partialStep := partialCleanup st state metadata files1
  let deleteStep := deleteFilesCleanup st state metadata delete_files partialStep.1
  (deleteStep.1, partialStep.2 ++ deleteStep.2)

/-- `ProcessManager.cancel_queue_item`. -/
def cancel_queue_item (st : SysState) (state_file_name : String)
    (delete_files : Bool) : SysState × Bool × String :=
  let state_file_path := pyJoin STAGING_DIR state_file_name
  if state_file_path ∈ st.files then
    let state := pyRsplitExt state_file_name
    match STATE_CONFIG.lookup state with
    | none => (st, false, "Unknown or non-cancellable state: " ++ state)
    | some config =>
      let metadata := st.metaOf state_file_path
      -- handle active processes
      let killedPid : Option Nat := match config.lock with
        | some ls => find_process_for_lock st ls
        | none => none
      let killMsgs : List String := match killedPid with
        | some pid =>
          match st.killRes pid with
          | .ok => ["Killed process " ++ toString pid]
          | .permissionDenied => ["Permission denied killing PID " ++ toString pid]
          | .noSuchProcess => ["Could not kill process: no such process"]
        | none => []
      -- lock cleanup, partial-file cleanup, optional file deletion
      let cleanup := cancelCleanupFiles st state config metadata killedPid delete_files
      -- revert or remove the state file
      match revert_state_file st.removeFails st.renameFails cleanup.1
          state_file_path config.revert_to with
      | some (files4, _, msg) =>
        ({ st with files := files4 }, true,
          String.intercalate ". " (killMsgs ++ cleanup.2 ++ [msg]))
      | none =>
        ({ st with files := cleanup.1 }, false, "Failed to update state file: error")
  else (st, false, "State file not found")

/-- A JSON scalar stored in record metadata. -/
inductive MVal
  | str (s : String)
  | boolean (b : Bool)
  | num (n : Int)
  | nullv
deriving DecidableEq, Repr

/-- Python truthiness of a metadata value. -/
def MVal.truthy : MVal → Bool
  | .str s => s != ""
  | .boolean b => b
  | .num n => n != 0
  | .nullv => false

/-- f-string rendering of a metadata value. -/
def MVal.toStr : MVal → String
  | .str s => s
  | .boolean b => if b then "True" else "False"
  | .num n => toString n
  | .nullv => "None"

/-- The value stored by `metadata["mkv_path"] = data.get("mkv_path")`. -/
def jsonOfOptStr : Option String → MVal
  | some s => .str s
  | none => .nullv

/-- Record metadata: a JSON object as an association list (keys are
unique because every mutation goes through `metaSet` / `metaPop`). -/
abbrev Meta := List (String × MVal)

/-- `metadata[k] = v`. -/
def metaSet (m : Meta) (k : String) (v : MVal) : Meta :=
  (k, v) :: m.filter (fun p => p.1 != k)

/-- `metadata.pop(k, None)` used for its removal effect. -/
def metaPop (m : Meta) (k : String) : Meta :=
  m.filter (fun p => p.1 != k)

/-- The staging directory of the cluster API: file name to parsed
content; `none` models a file whose content is not JSON (the ISO
payload itself, or a half-written record). -/
abbrev ClusterFS := List (String × Option Meta)

/-- Create or overwrite a record file. -/
def fsWrite (fs : ClusterFS) (name : String) (m : Meta) : ClusterFS :=
  (name, some m) :: fs.filter (fun p => p.1 != name)

/-- `os.remove` of a record file. -/
def fsDel (fs : ClusterFS) (name : String) : ClusterFS :=
  fs.filter (fun p => p.1 != name)

/-- Read and parse a record; any failure degrades to `{}` via the
`except` fallback in the source. -/
def readMetaD (fs : ClusterFS) (name : String) : Meta :=
  match fs.lookup name with
  | some (some m) => m
  | _ => []

/-- `os.path.exists(os.path.join(STAGING_DIR, name))` for a slash-free
`name`: the degenerate names `""`, `"."` and `".."` denote the staging
directory itself or its parent, which exist on the deployed host; any
other slash-free name exists exactly when a file of that name is in
the staging directory. -/
def staging_path_exists (keys : List String) (name : String) : Bool :=
  if name = "" ∨ name = "." ∨ name = ".." then true
  else keys.contains name

/-- Does a staging file NAME match the glob `*.{state}`?  `*` matches
a non-empty-or-empty run of non-slash characters, but never a leading
dot (glob skips hidden files). -/
def nameMatchesStateGlob (state : String) (n : String) : Bool :=
  isSuf ("." ++ state).data n.data &&
    decide (state.length + 1 ≤ n.length) &&
    !(n.data.take (n.length - (state.length + 1))).contains '/' &&
    (n.data.head? != some '.')

/-- Response of `api_accept_job`. -/
inductive AcceptResp
  | err (msg : String) (code : Nat)
  | accepted (state_file : String) (node_name : String) (queue_position : Nat)
deriving DecidableEq, Repr

/-- `iso_filename = os.path.basename(iso_path) if iso_path else ""` in
`api_accept_job`. -/
def isoFname (metadata : Meta) : String :=
  match metadata.lookup "iso_path" with
  | some v => if v.truthy then pyBasename v.toStr else ""
  | none => ""

/-- The metadata stamping block of `api_accept_job`: local `iso_path`,
`origin_node`, `is_remote_job`, `received_at`. -/
def acceptMeta (metadata : Meta) (origin now : String) : Meta :=
  metaSet (metaSet (metaSet (metaSet metadata
    "iso_path" (.str (pyJoin STAGING_DIR (isoFname metadata))))
    "origin_node" (.str origin))
    "is_remote_job" (.boolean true))
    "received_at" (.str now)

/-- `api_accept_job` from `pages/api_cluster.py`.  `metadata` and
`origin` come from the request body, `now` is the `received_at` stamp;
the HTTP no-body guard is subsumed by the empty-metadata error. -/
def api_accept_job (cluster_enabled : Bool) (node_name : String)
    (fs : ClusterFS) (metadata : Meta) (origin : String) (now : String) :
    ClusterFS × AcceptResp :=
  if !cluster_enabled then (fs, .err "Cluster mode is not enabled" 400)
  else if metadata.isEmpty then (fs, .err "Missing metadata in request" 400)
  else
    match metadata.lookup "title", metadata.lookup "timestamp" with
    | some tv, some sv =>
      if !tv.truthy || !sv.truthy then
        (fs, .err "Missing title or timestamp in metadata" 400)
      else
        let iso_filename := isoFname metadata
        let local_iso_path := pyJoin STAGING_DIR iso_filename
        if !staging_path_exists (fs.map Prod.fst) iso_filename then
          (fs, .err ("ISO not found: " ++ local_iso_path) 404)
        else
          let state_file := tv.toStr ++ "-" ++ sv.toStr ++ ".iso-ready"
          let fs2 := fsWrite fs state_file (acceptMeta metadata origin now)
          let queue_depth :=
            (fs2.map Prod.fst).countP (nameMatchesStateGlob "iso-ready")
          (fs2, .accepted (pyBasename state_file) node_name queue_depth)
    | some _, none => (fs, .err "Missing title or timestamp in metadata" 400)
    | none, _ => (fs, .err "Missing title or timestamp in metadata" 400)

/-- `glob.glob(STAGING_DIR + f"/{title}-{timestamp}.distributed-to-*")`
restricted to the staging file names: the names matching the shadow
pattern as a literal prefix, `*` standing for any non-slash run. -/
def distributedMatches (fs : ClusterFS) (title timestamp : String) : List String :=
  (fs.map Prod.fst).filter
    (fun n => isPre (title ++ "-" ++ timestamp ++ ".distributed-to-").data n.data &&
      !(n.data.drop (title ++ "-" ++ timestamp ++ ".distributed-to-").length).contains '/')

/-- Response of `api_job_complete`. -/
structure JCResp where
  status : String
  message : String
  state_file : Option String
deriving DecidableEq, Repr

/-- `api_job_complete` from `pages/api_cluster.py`.  `mkv_path` is the
request's optional result path and `now` stamps the completion time.
Glob metacharacters inside `title`/`timestamp` are not modelled: the
shadow-record pattern is matched as a literal prefix, with `*`
matching any non-slash run. -/
def api_job_complete (fs : ClusterFS) (title timestamp : String)
    (success : Bool) (mkv_path : Option String) (now : String) :
    ClusterFS × JCResp :=
  if title = "" ∨ timestamp = "" then
    (fs, ⟨"error", "Missing title or timestamp", none⟩)
  else
    match distributedMatches fs title timestamp with
    | [] =>
      (fs, ⟨"ok", "No matching distributed state file found (may have been cleaned up)", none⟩)
    | state_file :: _ =>
      let metadata := readMetaD fs state_file
      if success then
        let md1 := metaSet metadata "mkv_path" (jsonOfOptStr mkv_path)
        let md2 := metaSet md1 "remote_completed_at" (.str now)
        let new_name := title ++ "-" ++ timestamp ++ ".encoded-ready"
        let fs2 := fsDel (fsWrite fs new_name md2) state_file
        (fs2, ⟨"ok", "State updated to encoded-ready", some (pyBasename new_name)⟩)
      else
        let md1 := metaSet metadata "remote_failed_at" (.str now)
        let md2 := metaPop (metaPop md1 "is_remote_job") "origin_node"
        let new_name := title ++ "-" ++ timestamp ++ ".iso-ready"
        let fs2 := fsDel (fsWrite fs new_name md2) state_file
        (fs2, ⟨"ok", "State reverted to iso-ready for local retry", some (pyBasename new_name)⟩)

/-- The traversal filter of `api_confirm_files`: is `name` skipped? -/
def isTraversalName (name : String) : Bool :=
  containsSub "/".data name.data || containsSub "\\".data name.data ||
    containsSub "..".data name.data

/-- The accumulation loop of `api_confirm_files`, in list order. -/
def confirm_loop (keys : List String) : List String → List String × List String
  | [] => ([], [])
  | f :: rest =>
    let r := confirm_loop keys rest
    if isTraversalName f then r
    else if staging_path_exists keys f then (f :: r.1, r.2)
    else (r.1, f :: r.2)

/-- `api_confirm_files` from `pages/api_cluster.py`: `keys` are the
names present in the staging directory, `files` the request list; the
result is `(confirmed, missing)`. -/
def api_confirm_files (keys : List String) (files : List String) :
    List String × List String :=
  confirm_loop keys files

/-- The stored image path `api_accept_job` computes:
`os.path.join(STAGING_DIR, os.path.basename(iso_path))`. -/
def accept_local_iso_path (iso_path : String) : String :=
  pyJoin STAGING_DIR (pyBasename iso_path)

/-- Split a character list into slash-separated chunks. -/
def splitSlash : List Char → List (List Char)
  | [] => [[]]
  | c :: rest =>
    if c = '/' then [] :: splitSlash rest
    else
      match splitSlash rest with
      | [] => [[c]]
      | h :: t => (c :: h) :: t

/-- Path components of a POSIX path: slash chunks minus the empty and
`.` entries. -/
def pathComponents (s : String) : List String :=
  ((splitSlash s.data).map (fun l => (⟨l⟩ : String))).filter
    (fun c => c != "" && c != ".")

/-- Resolve `..` components of an absolute path against the root. -/
def resolveComps (cs : List String) : List String :=
  cs.foldl (fun acc c => if c = ".." then acc.dropLast else acc ++ [c]) []

/-- Does `p` denote a path directly inside the staging directory:
after resolving `.` and `..`, exactly one component below
`/var/tmp/dvd-rips`? -/
def insideStaging (p : String) : Bool :=
  let r := resolveComps (pathComponents p)
  (r.length == 4) && (r.take 3 == ["var", "tmp", "dvd-rips"])

/-- One queue item as assembled by `get_queue_items` (a corrupt record
degrades to empty metadata before this point). -/
structure QItem where
  state : String
  file : String
  metadata : Meta
  mtime : Nat

/-- Stable insertion for the newest-first sort. -/
def insertDesc (x : QItem) : List QItem → List QItem
  | [] => [x]
  | y :: ys => if y.mtime ≥ x.mtime then y :: insertDesc x ys else x :: y :: ys

/-- `sorted(items, key=mtime, reverse=True)`. -/
def sortNewestFirst : List QItem → List QItem
  | [] => []
  | x :: xs => insertDesc x (sortNewestFirst xs)

/-- `math.ceil(a / b)` for integers (`b ≠ 0`), via floor division. -/
def pyCeilDiv (a b : Int) : Int :=
  -((-a).fdiv b)

/-- `QUEUE_ITEMS_PER_PAGE` from `helpers/pipeline.py`. -/
def QUEUE_ITEMS_PER_PAGE : Int := 10

/-- The paginated result dictionary of `get_queue_items`. -/
structure PagedQueue where
  items : List QItem
  total : Nat
  page : Int
  per_page : Int
  total_pages : Int

/-- Result of `get_queue_items`: a bare list when `page is None`,
otherwise the pagination dictionary. -/
inductive QueueResult
  | all (items : List QItem)
  | paged (p : PagedQueue)

/-- Python list slice `l[a:b]` for `0 ≤ a ≤ b`, the only shape the
clamped pagination produces. -/
def pySlice (l : List QItem) (a b : Int) : List QItem :=
  (l.drop a.toNat).take (b - a).toNat

/-- `per_page = per_page or QUEUE_ITEMS_PER_PAGE`: Python `or` falls
back on a missing or zero (falsy) argument. -/
def effectivePerPage : Option Int → Int
  | none => QUEUE_ITEMS_PER_PAGE
  | some n => if n = 0 then QUEUE_ITEMS_PER_PAGE else n

/-- `get_queue_items` from `helpers/pipeline.py`; `items0` stands for
the records read from the staging directory. -/
def get_queue_items (items0 : List QItem) (page : Option Int)
    (per_page : Option Int) : QueueResult :=
  let items := sortNewestFirst items0
  match page with
  | none => .all items
  | some pg =>
    let pp : Int := effectivePerPage per_page
    let total : Nat := items.length
    let total_pages : Int := if total > 0 then pyCeilDiv total pp else 1
    let page2 := max 1 (min pg total_pages)
    let start := (page2 - 1) * pp
    let stop := start + pp
    .paged ⟨pySlice items start stop, total, page2, pp, total_pages⟩

theorem isPre_eq_true_iff (pat l : List Char) :
    isPre pat l = true ↔ pat <+: l := by
  induction pat generalizing l with
  | nil => simp [isPre]
  | cons a as ih =>
    cases l with
    | nil => simp [isPre]
    | cons b bs =>
      rw [isPre, List.cons_prefix_cons, Bool.and_eq_true, beq_iff_eq, ih]

theorem any_slot_active_iff (slots : List (String × LockCheck)) :
    any_slot_active slots = true ↔ ∃ e ∈ slots, e.2.active = true := by
  simp [any_slot_active, List.any_eq_true]

theorem family_slots_eq (pe : String → Bool) (key : String)
    (shards : List (String × LockFileSt)) (legacy : LockFileSt) :
    family_slots pe key shards legacy =
      shards.map (fun p => (p.1, check_lock_file pe p.2)) ++
        (if (check_lock_file pe legacy).active then
          [(key, check_lock_file pe legacy)] else []) := by
  unfold family_slots
  by_cases h : (check_lock_file pe legacy).active <;> simp [h]

/-- Claim C2 (code-bug evidence): a present, readable lock file with
EMPTY content — and likewise the non-numeric content "self" — is
reported ACTIVE by `check_lock_file` on a live Linux host, because the
stripped text is interpolated into `/proc/{pid}` without integer
conversion, and `/proc/` and `/proc/self` exist.  The spec (and the
dead `except ValueError` branch of the source itself) wants empty or
non-numeric content treated as inactive. -/
theorem check_lock_file_corrupt_content_reported_active :
    check_lock_file linuxProcSample ⟨true, true, ""⟩ = ⟨true, some ""⟩ ∧
      check_lock_file linuxProcSample ⟨true, true, "self"⟩ = ⟨true, some "self"⟩ :=
  ⟨rfl, rfl⟩

/-- Claim C5 counterexample: a present legacy `transfer.lock` whose
recorded pid is not in the process table produces NO per-shard entry
at all — the claim as stated requires a synthesized "legacy" entry
whenever the unsharded file exists. -/
theorem get_status_stale_legacy_entry_missing :
    (StatusInput.mk ⟨false, true, ""⟩ [] ⟨true, true, "4242"⟩ [] ⟨false, true, ""⟩
        [] ⟨false, true, ""⟩ ⟨false, true, ""⟩).transferLegacy.present = true ∧
      (get_status (fun _ => false)
        (StatusInput.mk ⟨false, true, ""⟩ [] ⟨true, true, "4242"⟩ [] ⟨false, true, ""⟩
          [] ⟨false, true, ""⟩ ⟨false, true, ""⟩)).transfer.slots = [] :=
  ⟨rfl, rfl⟩

/-- Claim C5 (amended): for each sharded family, `statusAll` yields
exactly one entry per present shard lock file — the check of that
file — plus the legacy pseudo-shard (key "legacy"; "default" for the
iso family) appended only when the legacy file's check is ACTIVE (file
present and recorded pid alive), and the family's combined active flag
is true iff some listed entry is active. -/
theorem get_status_sharded_families (pe : String → Bool) (inp : StatusInput) :
    ((get_status pe inp).transfer.slots =
        inp.transferShards.map (fun p => (p.1, check_lock_file pe p.2)) ++
          (if (check_lock_file pe inp.transferLegacy).active then
            [("legacy", check_lock_file pe inp.transferLegacy)] else []) ∧
      ((get_status pe inp).transfer.active = true ↔
        ∃ e ∈ (get_status pe inp).transfer.slots, e.2.active = true)) ∧
    ((get_status pe inp).encoder.slots =
        inp.encoderShards.map (fun p => (p.1, check_lock_file pe p.2)) ++
          (if (check_lock_file pe inp.encoderLegacy).active then
            [("legacy", check_lock_file pe inp.encoderLegacy)] else []) ∧
      ((get_status pe inp).encoder.active = true ↔
        ∃ e ∈ (get_status pe inp).encoder.slots, e.2.active = true)) ∧
    ((get_status pe inp).iso.slots =
        inp.isoDrives.map (fun p => (p.1, check_lock_file pe p.2)) ++
          (if (check_lock_file pe inp.isoLegacy).active then
            [("default", check_lock_file pe inp.isoLegacy)] else []) ∧
      ((get_status pe inp).iso.active = true ↔
        ∃ e ∈ (get_status pe inp).iso.slots, e.2.active = true)) := by
  refine ⟨⟨?_, ?_⟩, ⟨?_, ?_⟩, ⟨?_, ?_⟩⟩ <;>
    simp only [get_status, family_slots_eq] <;>
    first
      | rfl
      | exact any_slot_active_iff _

theorem effectivePerPage_pos (per_page : Option Int)
    (h : per_page = none ∨ ∃ n : Int, per_page = some n ∧ 0 < n) :
    0 < effectivePerPage per_page := by
  rcases h with rfl | ⟨n, rfl, hn⟩
  · decide
  · simp only [effectivePerPage]
    split
    · decide
    · exact hn

theorem pyCeilDiv_pos (n d : Int) (hn : 0 < n) (hd : 0 < d) :
    1 ≤ pyCeilDiv n d := by
  unfold pyCeilDiv
  rw [Int.fdiv_eq_ediv _ (le_of_lt hd)]
  have h := Int.ediv_neg' (a := -n) (by omega) hd
  omega

theorem length_pySlice_le (l : List QItem) (a b : Int) :
    (pySlice l a b).length ≤ (b - a).toNat := by
  unfold pySlice
  rw [List.length_take]
  exact min_le_left _ _

/-- Claim C10: for every integer page argument and every queue
contents, the paginated branch of `get_queue_items` (with the default
or any positive `per_page`) clamps the returned page into the range
`1..total_pages`, reports `total_pages = 1` for an empty queue,
returns at most `per_page` items, and — the embedding being a total
function whose slice indices are clamped nonnegative — never raises on
an out-of-range or non-positive page number. -/
theorem get_queue_items_pagination (items0 : List QItem) (pg : Int)
    (per_page : Option Int)
    (hpp : per_page = none ∨ ∃ n : Int, per_page = some n ∧ 0 < n) :
    ∃ r : PagedQueue, get_queue_items items0 (some pg) per_page = .paged r ∧
      1 ≤ r.page ∧ r.page ≤ r.total_pages ∧
      (items0 = [] → r.total_pages = 1) ∧
      0 < r.per_page ∧ (r.items.length : Int) ≤ r.per_page := by
  have hp : 0 < effectivePerPage per_page := effectivePerPage_pos per_page hpp
  refine ⟨_, rfl, ?_, ?_, ?_, hp, ?_⟩
  · exact le_max_left _ _
  · have h1 : (1 : Int) ≤
        (if (sortNewestFirst items0).length > 0 then
          pyCeilDiv ((sortNewestFirst items0).length : Int) (effectivePerPage per_page)
        else 1) := by
      split
      · next hL => exact pyCeilDiv_pos _ _ (by exact_mod_cast hL) hp
      · exact le_refl 1
    exact max_le h1 (min_le_right _ _)
  · intro h
    subst h
    simp [sortNewestFirst]
  · have hb := length_pySlice_le (sortNewestFirst items0)
      ((max 1 (min pg (if (sortNewestFirst items0).length > 0 then
          pyCeilDiv ((sortNewestFirst items0).length : Int) (effectivePerPage per_page)
        else 1)) - 1) * effectivePerPage per_page)
      ((max 1 (min pg (if (sortNewestFirst items0).length > 0 then
          pyCeilDiv ((sortNewestFirst items0).length : Int) (effectivePerPage per_page)
        else 1)) - 1) * effectivePerPage per_page + effectivePerPage per_page)
    have hc : ((max 1 (min pg (if (sortNewestFirst items0).length > 0 then
          pyCeilDiv ((sortNewestFirst items0).length : Int) (effectivePerPage per_page)
        else 1)) - 1) * effectivePerPage per_page + effectivePerPage per_page) -
        ((max 1 (min pg (if (sortNewestFirst items0).length > 0 then
          pyCeilDiv ((sortNewestFirst items0).length : Int) (effectivePerPage per_page)
        else 1)) - 1) * effectivePerPage per_page) = effectivePerPage per_page := by
      ring
    rw [hc] at hb
    calc ((pySlice (sortNewestFirst items0) _ _).length : Int)
        ≤ ((effectivePerPage per_page).toNat : Int) := by exact_mod_cast hb
      _ = effectivePerPage per_page := Int.toNat_of_nonneg hp.le

theorem lastSplit_eq_none (c : Char) (l : List Char) (h : c ∉ l) :
    lastSplit c l = none := by
  induction l with
  | nil => rfl
  | cons a rest ih =>
    simp only [List.mem_cons, not_or] at h
    simp only [lastSplit, ih h.2, if_neg (Ne.symm h.1)]

theorem lastSplit_append_last (c : Char) (xs ys : List Char) (h : c ∉ ys) :
    lastSplit c (xs ++ c :: ys) = some (xs, ys) := by
  induction xs with
  | nil =>
    simp only [List.nil_append, lastSplit, lastSplit_eq_none c ys h]
    simp
  | cons a rest ih =>
    simp only [List.cons_append, lastSplit, List.append_eq, ih]

theorem data_append_dot (base t : String) :
    (base ++ "." ++ t).data = base.data ++ '.' :: t.data := by
  simp [String.data_append]

theorem pyRsplitBase_of_suffix (base t : String) (h : '.' ∉ t.data) :
    pyRsplitBase (base ++ "." ++ t) = base := by
  unfold pyRsplitBase
  rw [data_append_dot, lastSplit_append_last '.' base.data t.data h]

theorem not_mem_fsRemove_self (files : List String) (p : String) :
    p ∉ fsRemove files p := by
  intro h
  have := (List.mem_filter.mp h).2
  simp at this

theorem confirm_loop_eq (keys : List String) (files : List String) :
    confirm_loop keys files =
      (files.filter (fun n => !isTraversalName n && staging_path_exists keys n),
       files.filter (fun n => !isTraversalName n && !staging_path_exists keys n)) := by
  induction files with
  | nil => rfl
  | cons f rest ih =>
    simp only [confirm_loop, ih, List.filter_cons]
    by_cases h1 : isTraversalName f <;> by_cases h2 : staging_path_exists keys f <;>
      simp [h1, h2]

/-- Claim C6 counterexample: with an empty staging directory, the name
`"."` — which contains no `/`, no `\` and no `".."` — is placed in the
CONFIRMED list by `api_confirm_files` (because
`os.path.exists(STAGING_DIR + "/.")` is true: it is the staging
directory itself), although no file of that name exists in staging;
the claim as stated requires it in `missing`. -/
theorem confirm_files_dot_confirmed_counterexample :
    ¬ (("." ∈ (api_confirm_files [] ["."]).1) ↔ "." ∈ ([] : List String)) := by
  decide

/-- Claim C6 (amended): any name containing `/`, `\` or `..` is
omitted from both response lists; every remaining name appears in
`confirmed` exactly when the joined staging path exists — which for
names other than the degenerate `""` and `"."` (that denote the
staging directory itself and are always confirmed) means a file of
that name is present in the staging directory — and in `missing`
exactly otherwise. -/
theorem confirm_files_spec (keys files : List String) (name : String)
    (hmem : name ∈ files) :
    (isTraversalName name = true →
      name ∉ (api_confirm_files keys files).1 ∧
        name ∉ (api_confirm_files keys files).2) ∧
    (isTraversalName name = false →
      ((name ∈ (api_confirm_files keys files).1 ↔
          staging_path_exists keys name = true) ∧
        (name ∈ (api_confirm_files keys files).2 ↔
          staging_path_exists keys name = false)) ∧
      (name ≠ "" → name ≠ "." →
        (staging_path_exists keys name = true ↔ name ∈ keys))) := by
  unfold api_confirm_files
  rw [confirm_loop_eq]
  constructor
  · intro h
    constructor <;> intro h2 <;>
      · have := (List.mem_filter.mp h2).2
        rw [h] at this
        simp at this
  · intro h
    refine ⟨⟨?_, ?_⟩, ?_⟩
    · rw [List.mem_filter]
      constructor
      · intro h2
        have := h2.2
        rw [h] at this
        simpa using this
      · intro h2
        exact ⟨hmem, by simp [h, h2]⟩
    · rw [List.mem_filter]
      constructor
      · intro h2
        have := h2.2
        rw [h] at this
        simp at this
        simpa using this
      · intro h2
        exact ⟨hmem, by simp [h, h2]⟩
    · intro h1 h2
      unfold staging_path_exists
      have hdd : name ≠ ".." := by
        intro he
        rw [he] at h
        simp [isTraversalName, containsSub, isPre] at h
      rw [if_neg (by simp [h1, h2, hdd])]
      simp [List.elem_iff]

/-- Claim C7: for every pid absent from the recognized pipeline
process list, `kill_process_with_cleanup` returns failure with the
not-a-recognized-process message and performs no mutation at all: the
system state is returned unchanged (no lock removed, no record renamed
or deleted) and no signal is sent. -/
theorem kill_unrecognized_pid_no_mutation (st : SysState) (procs : List DvdProc)
    (pid : Nat) (h : ∀ p ∈ procs, p.pid ≠ pid) :
    kill_process_with_cleanup st procs pid =
      (st, false, "PID " ++ toString pid ++ " is not a DVD ripper process") := by
  unfold kill_process_with_cleanup
  have hf : procs.find? (fun p => p.pid == pid) = none := by
    apply List.find?_eq_none.mpr
    intro p hp
    simpa using h p hp
  rw [hf]

/-- Claim C7 witness: on a concrete state holding one record and one
lock, killing pid 200 while only pid 100 is recognized changes
nothing. -/
theorem kill_unrecognized_pid_no_mutation_witness :
    kill_process_with_cleanup
        { files := ["/var/tmp/dvd-rips/Movie-100.encoding",
                    "/run/dvd-ripper/encoder.lock"],
          metaOf := fun _ => ⟨none, none⟩, lockContent := fun _ => "100",
          procAlive := fun _ => true, removeFails := fun _ => false,
          renameFails := fun _ => false, killRes := fun _ => .ok }
        [⟨100, "encoder"⟩] 200 =
      ({ files := ["/var/tmp/dvd-rips/Movie-100.encoding",
                   "/run/dvd-ripper/encoder.lock"],
         metaOf := fun _ => ⟨none, none⟩, lockContent := fun _ => "100",
         procAlive := fun _ => true, removeFails := fun _ => false,
         renameFails := fun _ => false, killRes := fun _ => .ok },
       false, "PID " ++ toString 200 ++ " is not a DVD ripper process") :=
  kill_unrecognized_pid_no_mutation _ _ 200 (by decide)

/-- Claim C6 witness: a present regular file name is confirmed. -/
theorem confirm_files_spec_witness :
    (isTraversalName "a.iso" = true →
      "a.iso" ∉ (api_confirm_files ["a.iso"] ["a.iso"]).1 ∧
        "a.iso" ∉ (api_confirm_files ["a.iso"] ["a.iso"]).2) ∧
    (isTraversalName "a.iso" = false →
      (("a.iso" ∈ (api_confirm_files ["a.iso"] ["a.iso"]).1 ↔
          staging_path_exists ["a.iso"] "a.iso" = true) ∧
        ("a.iso" ∈ (api_confirm_files ["a.iso"] ["a.iso"]).2 ↔
          staging_path_exists ["a.iso"] "a.iso" = false)) ∧
      ("a.iso" ≠ "" → "a.iso" ≠ "." →
        (staging_path_exists ["a.iso"] "a.iso" = true ↔ "a.iso" ∈ ["a.iso"]))) :=
  confirm_files_spec ["a.iso"] ["a.iso"] "a.iso" (by decide)

/-- Claim C8: `revert_state_file` — the single transition primitive —
with a target stage renames only the suffix: the new path is the old
base plus the new stage, and the `{title}-{timestamp}` base of both
old and new path is the same; with `None` it removes the record file,
so a subsequent enumerate of any stage never returns it. -/
theorem revert_state_file_transition_spec (rmF rnF : String → Bool)
    (files : List String) (base st t : String)
    (hst : '.' ∉ st.data) (ht : '.' ∉ t.data)
    (hmem : base ++ "." ++ st ∈ files)
    (hrm : rmF (base ++ "." ++ st) = false)
    (hrn : rnF (base ++ "." ++ st) = false) :
    (revert_state_file rmF rnF files (base ++ "." ++ st) (some t) =
        some (fsAdd (fsRemove files (base ++ "." ++ st)) (base ++ "." ++ t),
          some (base ++ "." ++ t),
          "Reverted " ++ pyBasename (base ++ "." ++ st) ++ " to " ++ t) ∧
      pyRsplitBase (base ++ "." ++ st) = base ∧
      pyRsplitBase (base ++ "." ++ t) = base) ∧
    (revert_state_file rmF rnF files (base ++ "." ++ st) none =
        some (fsRemove files (base ++ "." ++ st), none,
          "Removed " ++ pyBasename (base ++ "." ++ st)) ∧
      ∀ s, base ++ "." ++ st ∉
        enumerate_stage (fsRemove files (base ++ "." ++ st)) s) := by
  refine ⟨⟨?_, pyRsplitBase_of_suffix base st hst, pyRsplitBase_of_suffix base t ht⟩,
    ?_, ?_⟩
  · simp [revert_state_file, hmem, hrn, pyRsplitBase_of_suffix base st hst]
  · simp [revert_state_file, hmem, hrm]
  · intro s hmem2
    have h1 := (List.mem_filter.mp hmem2).1
    exact not_mem_fsRemove_self files _ h1

/-- Claim C8 witness: reverting a concrete encoding record to
iso-ready, and removing it. -/
theorem revert_state_file_transition_spec_witness :
    (revert_state_file (fun _ => false) (fun _ => false)
          ["/var/tmp/dvd-rips/Movie-100.encoding"]
          ("/var/tmp/dvd-rips/Movie-100" ++ "." ++ "encoding") (some "iso-ready") =
        some (fsAdd (fsRemove ["/var/tmp/dvd-rips/Movie-100.encoding"]
            ("/var/tmp/dvd-rips/Movie-100" ++ "." ++ "encoding"))
            ("/var/tmp/dvd-rips/Movie-100" ++ "." ++ "iso-ready"),
          some ("/var/tmp/dvd-rips/Movie-100" ++ "." ++ "iso-ready"),
          "Reverted " ++
            pyBasename ("/var/tmp/dvd-rips/Movie-100" ++ "." ++ "encoding") ++
            " to " ++ "iso-ready") ∧
      pyRsplitBase ("/var/tmp/dvd-rips/Movie-100" ++ "." ++ "encoding") =
        "/var/tmp/dvd-rips/Movie-100" ∧
      pyRsplitBase ("/var/tmp/dvd-rips/Movie-100" ++ "." ++ "iso-ready") =
        "/var/tmp/dvd-rips/Movie-100") ∧
    (revert_state_file (fun _ => false) (fun _ => false)
          ["/var/tmp/dvd-rips/Movie-100.encoding"]
          ("/var/tmp/dvd-rips/Movie-100" ++ "." ++ "encoding") none =
        some (fsRemove ["/var/tmp/dvd-rips/Movie-100.encoding"]
            ("/var/tmp/dvd-rips/Movie-100" ++ "." ++ "encoding"), none,
          "Removed " ++
            pyBasename ("/var/tmp/dvd-rips/Movie-100" ++ "." ++ "encoding")) ∧
      ∀ s, ("/var/tmp/dvd-rips/Movie-100" ++ "." ++ "encoding") ∉
        enumerate_stage (fsRemove ["/var/tmp/dvd-rips/Movie-100.encoding"]
          ("/var/tmp/dvd-rips/Movie-100" ++ "." ++ "encoding")) s) :=
  revert_state_file_transition_spec (fun _ => false) (fun _ => false)
    ["/var/tmp/dvd-rips/Movie-100.encoding"]
    "/var/tmp/dvd-rips/Movie-100" "encoding" "iso-ready"
    (by decide) (by decide) (by decide) rfl rfl

theorem lookup_filter_key_ne {β : Type} (l : List (String × β)) (k k' : String)
    (h : k' ≠ k) :
    (l.filter (fun p => p.1 != k)).lookup k' = l.lookup k' := by
  induction l with
  | nil => rfl
  | cons p rest ih =>
    obtain ⟨a, b⟩ := p
    by_cases hp : a = k
    · subst hp
      have hba : (k' == a) = false := beq_eq_false_iff_ne.mpr h
      simp [List.filter_cons, List.lookup, hba, ih]
    · by_cases hk : k' = a
      · subst hk
        simp [List.filter_cons, List.lookup, hp]
      · have hba : (k' == a) = false := beq_eq_false_iff_ne.mpr hk
        simp [List.filter_cons, List.lookup, hp, hba, ih]

theorem lookup_filter_key_self {β : Type} (l : List (String × β)) (k : String) :
    (l.filter (fun p => p.1 != k)).lookup k = none := by
  induction l with
  | nil => rfl
  | cons p rest ih =>
    obtain ⟨a, b⟩ := p
    by_cases hp : a = k
    · simp [List.filter_cons, hp, ih]
    · have hba : (k == a) = false := beq_eq_false_iff_ne.mpr (Ne.symm hp)
      simp [List.filter_cons, List.lookup, hp, hba, ih]

theorem metaSet_lookup_self (m : Meta) (k : String) (v : MVal) :
    (metaSet m k v).lookup k = some v := by
  simp [metaSet, List.lookup]

theorem metaSet_lookup_ne (m : Meta) (k : String) (v : MVal) (k' : String)
    (h : k' ≠ k) :
    (metaSet m k v).lookup k' = m.lookup k' := by
  have hba : (k' == k) = false := beq_eq_false_iff_ne.mpr h
  simp only [metaSet, List.lookup, hba]
  exact lookup_filter_key_ne m k k' h

theorem metaPop_lookup_self (m : Meta) (k : String) :
    (metaPop m k).lookup k = none :=
  lookup_filter_key_self m k

theorem metaPop_lookup_ne (m : Meta) (k k' : String) (h : k' ≠ k) :
    (metaPop m k).lookup k' = m.lookup k' :=
  lookup_filter_key_ne m k k' h

theorem fsDel_key_not_mem (fs : ClusterFS) (k : String) :
    k ∉ (fsDel fs k).map Prod.fst := by
  intro h
  obtain ⟨p, hp, he⟩ := List.mem_map.mp h
  have h2 := (List.mem_filter.mp hp).2
  rw [he] at h2
  simp at h2

theorem fsDel_lookup_ne (fs : ClusterFS) (k k' : String) (h : k' ≠ k) :
    (fsDel fs k).lookup k' = fs.lookup k' :=
  lookup_filter_key_ne fs k k' h

theorem fsWrite_lookup_self (fs : ClusterFS) (k : String) (m : Meta) :
    (fsWrite fs k m).lookup k = some (some m) := by
  simp [fsWrite, List.lookup]

theorem isPre_append_cancel (p x y : List Char) :
    isPre (p ++ x) (p ++ y) = isPre x y := by
  induction p with
  | nil => rfl
  | cons a rest ih => simp [isPre, ih]

theorem ne_append_of_pre (P m sufA sufB : String)
    (hAB : isPre sufA.data sufB.data = false)
    (hpre : isPre (P ++ sufA).data m.data = true) : m ≠ P ++ sufB := by
  intro he
  rw [he, String.data_append, String.data_append, isPre_append_cancel, hAB] at hpre
  exact Bool.false_ne_true hpre

theorem readMetaD_of_lookup {fs : ClusterFS} {name : String} {m : Meta}
    (h : fs.lookup name = some (some m)) : readMetaD fs name = m := by
  unfold readMetaD
  rw [h]

/-- Claim C3: for every job-complete call carrying a (truthy) title and
timestamp: when no shadow record matches, the call returns status "ok"
— a success/no-op, not an error — and leaves the staging directory
unchanged; when a shadow record `m` heads the matches, the call
answers "ok" and removes `m`, and with `success=true` produces the
`{title}-{timestamp}.encoded-ready` record whose metadata records the
supplied result path under `mkv_path`, while with `success=false` it
produces the `{title}-{timestamp}.iso-ready` record (the stage the
spec calls image-ready) whose metadata no longer contains the
`is_remote_job` and `origin_node` markers. -/
theorem job_complete_spec (fs : ClusterFS) (title ts : String)
    (success : Bool) (mkv : Option String) (now : String)
    (ht : title ≠ "") (hts : ts ≠ "") :
    (distributedMatches fs title ts = [] →
      api_job_complete fs title ts success mkv now =
        (fs, ⟨"ok",
          "No matching distributed state file found (may have been cleaned up)",
          none⟩)) ∧
    (∀ m rest, distributedMatches fs title ts = m :: rest →
      ((api_job_complete fs title ts success mkv now).2.status = "ok" ∧
        m ∉ (api_job_complete fs title ts success mkv now).1.map Prod.fst) ∧
      (success = true →
        ((api_job_complete fs title ts success mkv now).1.lookup
            (title ++ "-" ++ ts ++ ".encoded-ready")).isSome = true ∧
          (readMetaD (api_job_complete fs title ts success mkv now).1
              (title ++ "-" ++ ts ++ ".encoded-ready")).lookup "mkv_path" =
            some (jsonOfOptStr mkv)) ∧
      (success = false →
        ((api_job_complete fs title ts success mkv now).1.lookup
            (title ++ "-" ++ ts ++ ".iso-ready")).isSome = true ∧
          (readMetaD (api_job_complete fs title ts success mkv now).1
              (title ++ "-" ++ ts ++ ".iso-ready")).lookup "is_remote_job" = none ∧
          (readMetaD (api_job_complete fs title ts success mkv now).1
              (title ++ "-" ++ ts ++ ".iso-ready")).lookup "origin_node" = none)) := by
  have hcond : ¬(title = "" ∨ ts = "") := by
    intro h
    rcases h with h | h
    · exact ht h
    · exact hts h
  constructor
  · intro hempty
    unfold api_job_complete
    rw [if_neg hcond, hempty]
  · intro m rest hfound
    have hm : m ∈ distributedMatches fs title ts := by
      rw [hfound]
      exact List.mem_cons_self m rest
    have hm2 : m ∈ (fs.map Prod.fst).filter
        (fun n => isPre (title ++ "-" ++ ts ++ ".distributed-to-").data n.data &&
          !(n.data.drop (title ++ "-" ++ ts ++ ".distributed-to-").length).contains '/') := by
      unfold distributedMatches at hm
      exact hm
    have hpre : isPre ((title ++ "-" ++ ts) ++ ".distributed-to-").data m.data = true := by
      have h := (List.mem_filter.mp hm2).2
      simp only [Bool.and_eq_true] at h
      exact h.1
    have hne1 : m ≠ (title ++ "-" ++ ts) ++ ".encoded-ready" :=
      ne_append_of_pre (title ++ "-" ++ ts) m ".distributed-to-" ".encoded-ready"
        (by decide) hpre
    have hne2 : m ≠ (title ++ "-" ++ ts) ++ ".iso-ready" :=
      ne_append_of_pre (title ++ "-" ++ ts) m ".distributed-to-" ".iso-ready"
        (by decide) hpre
    cases success with
    | true =>
      simp only [api_job_complete, if_neg hcond, hfound, eq_self_iff_true, ite_true]
      have hlook : (fsDel (fsWrite fs ((title ++ "-" ++ ts) ++ ".encoded-ready")
            (metaSet (metaSet (readMetaD fs m) "mkv_path" (jsonOfOptStr mkv))
              "remote_completed_at" (.str now))) m).lookup
            ((title ++ "-" ++ ts) ++ ".encoded-ready") =
          some (some (metaSet (metaSet (readMetaD fs m) "mkv_path" (jsonOfOptStr mkv))
            "remote_completed_at" (.str now))) := by
        rw [fsDel_lookup_ne _ _ _ (Ne.symm hne1), fsWrite_lookup_self]
      refine ⟨⟨trivial, fsDel_key_not_mem _ m⟩, fun _ => ⟨?_, ?_⟩,
        fun hfalse => Bool.noConfusion hfalse⟩
      · rw [hlook]
        rfl
      · rw [readMetaD_of_lookup hlook, metaSet_lookup_ne _ _ _ _ (by decide)]
        exact metaSet_lookup_self _ _ _
    | false =>
      simp only [api_job_complete, if_neg hcond, hfound, Bool.false_eq_true, ite_false]
      have hlook : (fsDel (fsWrite fs ((title ++ "-" ++ ts) ++ ".iso-ready")
            (metaPop (metaPop (metaSet (readMetaD fs m) "remote_failed_at" (.str now))
              "is_remote_job") "origin_node")) m).lookup
            ((title ++ "-" ++ ts) ++ ".iso-ready") =
          some (some (metaPop (metaPop (metaSet (readMetaD fs m)
            "remote_failed_at" (.str now)) "is_remote_job") "origin_node")) := by
        rw [fsDel_lookup_ne _ _ _ (Ne.symm hne2), fsWrite_lookup_self]
      refine ⟨⟨trivial, fsDel_key_not_mem _ m⟩,
        fun htrue => htrue.elim, fun _ => ⟨?_, ?_, ?_⟩⟩
      · rw [hlook]
        rfl
      · rw [readMetaD_of_lookup hlook, metaPop_lookup_ne _ _ _ (by decide)]
        exact metaPop_lookup_self _ _
      · rw [readMetaD_of_lookup hlook]
        exact metaPop_lookup_self _ _

theorem pyRsplitExt_of_suffix (base t : String) (h : '.' ∉ t.data) :
    pyRsplitExt (base ++ "." ++ t) = t := by
  unfold pyRsplitExt
  rw [data_append_dot, lastSplit_append_last '.' base.data t.data h]

theorem mem_fsRemove_of_ne {files : List String} {p q : String}
    (hp : p ∈ files) (hne : p ≠ q) : p ∈ fsRemove files q :=
  List.mem_filter.mpr ⟨hp, by simp [hne]⟩

theorem mem_ite_fsRemove {c : Bool} (X : List String) (p q : String)
    (hp : p ∈ X) (hne : p ≠ q) :
    p ∈ (if c = true then fsRemove X q else X) := by
  split
  · exact mem_fsRemove_of_ne hp hne
  · exact hp

theorem mem_cleanIsoShards (rmF : String → Bool) (lc : String → String)
    (kp : Option Nat) (iter files : List String) (P : String)
    (hP : P ∈ files) (hne : ∀ lf ∈ iter, P ≠ lf) :
    P ∈ cleanIsoShards rmF lc kp iter files := by
  induction iter generalizing files with
  | nil => exact hP
  | cons lf rest ih =>
    unfold cleanIsoShards
    have hPlf : P ≠ lf := hne lf (List.mem_cons_self lf rest)
    have hrest : ∀ x ∈ rest, P ≠ x := fun x hx => hne x (List.mem_cons_of_mem lf hx)
    refine ih _ ?_ hrest
    split
    · exact mem_ite_fsRemove _ _ _ hP hPlf
    · exact hP

theorem LOCK_FILES_lookup_cases (ls lf : String)
    (h : LOCK_FILES.lookup ls = some lf) :
    lf = "/run/dvd-ripper/encoder.lock" ∨ lf = "/run/dvd-ripper/transfer.lock" ∨
      lf = "/run/dvd-ripper/distribute.lock" := by
  by_cases h1 : ls = "encoder"
  · subst h1
    simp [LOCK_FILES, List.lookup] at h
    exact Or.inl h.symm
  by_cases h2 : ls = "transfer"
  · subst h2
    simp [LOCK_FILES, List.lookup] at h
    exact Or.inr (Or.inl h.symm)
  by_cases h3 : ls = "distribute"
  · subst h3
    simp [LOCK_FILES, List.lookup] at h
    exact Or.inr (Or.inr h.symm)
  · exfalso
    have b1 : (ls == "encoder") = false := beq_eq_false_iff_ne.mpr h1
    have b2 : (ls == "transfer") = false := beq_eq_false_iff_ne.mpr h2
    have b3 : (ls == "distribute") = false := beq_eq_false_iff_ne.mpr h3
    simp [LOCK_FILES, List.lookup, b1, b2, b3] at h

theorem STATE_CONFIG_lookup_cases (stg : String) (cfg : StateCfg)
    (h : STATE_CONFIG.lookup stg = some cfg) :
    (stg = "iso-creating" ∧ cfg = ⟨some "iso", none⟩) ∨
    (stg = "iso-ready" ∧ cfg = ⟨none, none⟩) ∨
    (stg = "distributing" ∧ cfg = ⟨some "distribute", some "iso-ready"⟩) ∨
    (stg = "encoding" ∧ cfg = ⟨some "encoder", some "iso-ready"⟩) ∨
    (stg = "encoded-ready" ∧ cfg = ⟨none, none⟩) ∨
    (stg = "transferring" ∧ cfg = ⟨some "transfer", some "encoded-ready"⟩) := by
  by_cases h1 : stg = "iso-creating"
  · subst h1
    simp [STATE_CONFIG, List.lookup] at h
    exact Or.inl ⟨rfl, h.symm⟩
  by_cases h2 : stg = "iso-ready"
  · subst h2
    simp [STATE_CONFIG, List.lookup] at h
    exact Or.inr (Or.inl ⟨rfl, h.symm⟩)
  by_cases h3 : stg = "distributing"
  · subst h3
    simp [STATE_CONFIG, List.lookup] at h
    exact Or.inr (Or.inr (Or.inl ⟨rfl, h.symm⟩))
  by_cases h4 : stg = "encoding"
  · subst h4
    simp [STATE_CONFIG, List.lookup] at h
    exact Or.inr (Or.inr (Or.inr (Or.inl ⟨rfl, h.symm⟩)))
  by_cases h5 : stg = "encoded-ready"
  · subst h5
    simp [STATE_CONFIG, List.lookup] at h
    exact Or.inr (Or.inr (Or.inr (Or.inr (Or.inl ⟨rfl, h.symm⟩))))
  by_cases h6 : stg = "transferring"
  · subst h6
    simp [STATE_CONFIG, List.lookup] at h
    exact Or.inr (Or.inr (Or.inr (Or.inr (Or.inr ⟨rfl, h.symm⟩))))
  · exfalso
    have b1 : (stg == "iso-creating") = false := beq_eq_false_iff_ne.mpr h1
    have b2 : (stg == "iso-ready") = false := beq_eq_false_iff_ne.mpr h2
    have b3 : (stg == "distributing") = false := beq_eq_false_iff_ne.mpr h3
    have b4 : (stg == "encoding") = false := beq_eq_false_iff_ne.mpr h4
    have b5 : (stg == "encoded-ready") = false := beq_eq_false_iff_ne.mpr h5
    have b6 : (stg == "transferring") = false := beq_eq_false_iff_ne.mpr h6
    simp [STATE_CONFIG, List.lookup, b1, b2, b3, b4, b5, b6] at h

theorem isPre_append_self (p x : List Char) : isPre p (p ++ x) = true := by
  induction p with
  | nil => rfl
  | cons a rest ih => simp [isPre, ih]

theorem staging_ne_of_not_pre (name q : String)
    (hq : isPre "/var/tmp/dvd-rips/".data q.data = false) :
    "/var/tmp/dvd-rips/" ++ name ≠ q := by
  intro he
  have hp : isPre "/var/tmp/dvd-rips/".data
      ("/var/tmp/dvd-rips/" ++ name).data = true := by
    rw [String.data_append]
    exact isPre_append_self _ _
  rw [he, hq] at hp
  exact Bool.false_ne_true hp

theorem isIsoShardLock_staging (name : String) :
    isIsoShardLock ("/var/tmp/dvd-rips/" ++ name) = false := by
  have hp : isPre "/run/dvd-ripper/iso-".data
      ("/var/tmp/dvd-rips/" ++ name).data = false := by
    rw [String.data_append]
    simp [isPre]
  simp only [isIsoShardLock]
  rw [hp]
  simp

theorem mem_lockCleanup (st : SysState) (lock : Option String) (kp : Option Nat)
    (name : String) (hP : ("/var/tmp/dvd-rips/" ++ name) ∈ st.files) :
    ("/var/tmp/dvd-rips/" ++ name) ∈ lockCleanup st lock kp := by
  unfold lockCleanup
  split
  · have hc : ("/var/tmp/dvd-rips/" ++ name) ∈
        cleanIsoShards st.removeFails st.lockContent kp
          (st.files.filter isIsoShardLock) st.files := by
      apply mem_cleanIsoShards _ _ _ _ _ _ hP
      intro lf hlf he
      have h2 := (List.mem_filter.mp hlf).2
      rw [← he, isIsoShardLock_staging] at h2
      exact Bool.false_ne_true h2
    exact mem_ite_fsRemove _ _ _ hc (staging_ne_of_not_pre _ _ (by decide))
  · cases hlk : lock.bind (fun ls => LOCK_FILES.lookup ls) with
    | none => exact hP
    | some lf =>
      have hne : ("/var/tmp/dvd-rips/" ++ name) ≠ lf := by
        obtain ⟨ls, _, hlk2⟩ := Option.bind_eq_some.mp hlk
        rcases LOCK_FILES_lookup_cases ls lf hlk2 with h | h | h <;>
          · rw [h]
            exact staging_ne_of_not_pre _ _ (by decide)
      exact mem_ite_fsRemove _ _ _ hP hne

theorem mem_removeArtifact (rmF : String → Bool) (files : List String)
    (path : Option String) (okMsg : String) (failMsg : Option String)
    (P : String) (hP : P ∈ files) (hne : path ≠ some P) :
    P ∈ (removeArtifact rmF files path okMsg failMsg).1 := by
  unfold removeArtifact
  cases path with
  | none => exact hP
  | some p =>
    have hpP : P ≠ p := by
      intro he
      exact hne (by rw [he])
    show P ∈ (if p ≠ "" ∧ p ∈ files then
      if rmF p = true then (files, failMsg.toList)
      else (fsRemove files p, [okMsg]) else (files, [])).1
    by_cases hc : p ≠ "" ∧ p ∈ files
    · rw [if_pos hc]
      by_cases hr : rmF p = true
      · rw [if_pos hr]
        exact hP
      · rw [if_neg hr]
        exact mem_fsRemove_of_ne hP hpP
    · rw [if_neg hc]
      exact hP

theorem mem_cancelCleanupFiles (st : SysState) (state : String) (config : StateCfg)
    (metadata : CMeta) (kp : Option Nat) (delete_files : Bool) (name : String)
    (hP : ("/var/tmp/dvd-rips/" ++ name) ∈ st.files)
    (hiso : metadata.iso_path ≠ some ("/var/tmp/dvd-rips/" ++ name))
    (hmkv : metadata.mkv_path ≠ some ("/var/tmp/dvd-rips/" ++ name)) :
    ("/var/tmp/dvd-rips/" ++ name) ∈
      (cancelCleanupFiles st state config metadata kp delete_files).1 := by
  have h1 := mem_lockCleanup st config.lock kp name hP
  have h2 : ("/var/tmp/dvd-rips/" ++ name) ∈
      (partialCleanup st state metadata (lockCleanup st config.lock kp)).1 := by
    unfold partialCleanup
    split
    · exact mem_removeArtifact _ _ _ _ _ _ h1 hiso
    split
    · exact mem_removeArtifact _ _ _ _ _ _ h1 hmkv
    · exact h1
  have h3 : ("/var/tmp/dvd-rips/" ++ name) ∈
      (deleteFilesCleanup st state metadata delete_files
        (partialCleanup st state metadata (lockCleanup st config.lock kp)).1).1 := by
    unfold deleteFilesCleanup
    split
    · split
      · exact mem_removeArtifact _ _ _ _ _ _ h2 hiso
      split
      · exact mem_removeArtifact _ _ _ _ _ _ h2 hmkv
      · exact h2
    · exact h2
  exact h3

theorem revert_none_eq (rmF rnF : String → Bool) (files : List String) (P : String)
    (hmem : P ∈ files) (hrm : rmF P = false) :
    revert_state_file rmF rnF files P none =
      some (fsRemove files P, none, "Removed " ++ pyBasename P) := by
  simp [revert_state_file, hmem, hrm]

theorem revert_some_eq (rmF rnF : String → Bool) (files : List String) (P t : String)
    (hmem : P ∈ files) (hrn : rnF P = false) :
    revert_state_file rmF rnF files P (some t) =
      some (fsAdd (fsRemove files P) (pyRsplitBase P ++ "." ++ t),
        some (pyRsplitBase P ++ "." ++ t),
        "Reverted " ++ pyBasename P ++ " to " ++ t) := by
  simp [revert_state_file, hmem, hrn]

theorem str_append_assoc (a b c : String) : a ++ b ++ c = a ++ (b ++ c) :=
  String.ext (by simp [String.data_append])

theorem pyJoin_staging_relative (b : String) (h : isPre ['/'] b.data = false) :
    pyJoin STAGING_DIR b = "/var/tmp/dvd-rips/" ++ b := by
  unfold pyJoin
  rw [h]
  simp only [Bool.false_eq_true, ite_false]
  rw [if_neg (by decide)]
  exact String.ext (by simp [STAGING_DIR, String.data_append])

/-- Claim C1 (amended): cancelling an existing record in a cancellable
stage always reaches the final state-file transition — kill failures,
lock-removal failures and artifact-removal failures (any failure
oracle) never abort earlier — and whenever that final remove/rename
itself succeeds, the call returns success and the record ends in
exactly one of the two terminal states: deleted (revert target
`None`), or renamed to its configured revert target; never in its
original stage.  The hypotheses also require the record's artifact
paths to differ from the record path itself, as they always do for
real records. -/
theorem cancel_queue_item_terminal (st : SysState) (nbase stg : String)
    (cfg : StateCfg) (delete_files : Bool)
    (hdot : '.' ∉ stg.data)
    (hrel : isPre ['/'] (nbase ++ "." ++ stg).data = false)
    (hcfg : STATE_CONFIG.lookup stg = some cfg)
    (hmem : ("/var/tmp/dvd-rips/" ++ (nbase ++ "." ++ stg)) ∈ st.files)
    (hiso : (st.metaOf ("/var/tmp/dvd-rips/" ++ (nbase ++ "." ++ stg))).iso_path ≠
      some ("/var/tmp/dvd-rips/" ++ (nbase ++ "." ++ stg)))
    (hmkv : (st.metaOf ("/var/tmp/dvd-rips/" ++ (nbase ++ "." ++ stg))).mkv_path ≠
      some ("/var/tmp/dvd-rips/" ++ (nbase ++ "." ++ stg)))
    (hrm : st.removeFails ("/var/tmp/dvd-rips/" ++ (nbase ++ "." ++ stg)) = false)
    (hrn : st.renameFails ("/var/tmp/dvd-rips/" ++ (nbase ++ "." ++ stg)) = false) :
    (cancel_queue_item st (nbase ++ "." ++ stg) delete_files).2.1 = true ∧
    ("/var/tmp/dvd-rips/" ++ (nbase ++ "." ++ stg)) ∉
      (cancel_queue_item st (nbase ++ "." ++ stg) delete_files).1.files ∧
    (∀ t, cfg.revert_to = some t →
      (("/var/tmp/dvd-rips/" ++ nbase) ++ "." ++ t) ∈
        (cancel_queue_item st (nbase ++ "." ++ stg) delete_files).1.files) := by
  have hjoin := pyJoin_staging_relative (nbase ++ "." ++ stg) hrel
  have hext := pyRsplitExt_of_suffix nbase stg hdot
  have hPassoc : ("/var/tmp/dvd-rips/" ++ (nbase ++ "." ++ stg)) =
      (("/var/tmp/dvd-rips/" ++ nbase) ++ "." ++ stg) :=
    String.ext (by simp [String.data_append])
  have hbase : pyRsplitBase ("/var/tmp/dvd-rips/" ++ (nbase ++ "." ++ stg)) =
      "/var/tmp/dvd-rips/" ++ nbase := by
    rw [hPassoc]
    exact pyRsplitBase_of_suffix _ _ hdot
  have hC : ("/var/tmp/dvd-rips/" ++ (nbase ++ "." ++ stg)) ∈
      (cancelCleanupFiles st stg cfg
        (st.metaOf ("/var/tmp/dvd-rips/" ++ (nbase ++ "." ++ stg)))
        (match cfg.lock with
          | some ls => find_process_for_lock st ls
          | none => none)
        delete_files).1 :=
    mem_cancelCleanupFiles st stg cfg _ _ delete_files _ hmem hiso hmkv
  simp only [cancel_queue_item, hjoin, hext, hcfg, hmem, ite_true]
  cases hrt : cfg.revert_to with
  | none =>
    simp only [revert_none_eq _ _ _ _ hC hrm]
    refine ⟨trivial, not_mem_fsRemove_self _ _, ?_⟩
    intro t ht
    exact Option.noConfusion ht
  | some t =>
    have hstgt : stg ≠ t := by
      rcases STATE_CONFIG_lookup_cases stg cfg hcfg with
        ⟨h1, h2⟩ | ⟨h1, h2⟩ | ⟨h1, h2⟩ | ⟨h1, h2⟩ | ⟨h1, h2⟩ | ⟨h1, h2⟩ <;>
        subst h1 <;> subst h2 <;> simp at hrt <;> rw [← hrt] <;> decide
    have hPne : ("/var/tmp/dvd-rips/" ++ (nbase ++ "." ++ stg)) ≠
        pyRsplitBase ("/var/tmp/dvd-rips/" ++ (nbase ++ "." ++ stg)) ++ "." ++ t := by
      rw [hbase]
      intro he
      rw [hPassoc] at he
      have hd := congrArg String.data he
      rw [data_append_dot, data_append_dot] at hd
      have h3 := List.append_cancel_left hd
      injection h3 with _ h4
      exact hstgt (String.ext h4)
    simp only [revert_some_eq _ _ _ _ _ hC hrn]
    refine ⟨trivial, ?_, ?_⟩
    · intro hmem2
      rcases List.mem_cons.mp hmem2 with he | hm2
      · exact hPne he
      · exact not_mem_fsRemove_self _ _ (List.mem_of_mem_filter hm2)
    · intro t2 ht2
      have ht2e : t = t2 := by
        injection ht2
      subst ht2e
      rw [hbase]
      exact List.mem_cons_self _ _

theorem fsWrite_keys_mem (fs : ClusterFS) (k k' : String) (m : Meta)
    (h : k' ∈ fs.map Prod.fst) : k' ∈ (fsWrite fs k m).map Prod.fst := by
  by_cases he : k' = k
  · subst he
    simp [fsWrite]
  · simp only [fsWrite, List.map_cons, List.mem_cons]
    right
    obtain ⟨p, hp, hpe⟩ := List.mem_map.mp h
    exact List.mem_map.mpr ⟨p, List.mem_filter.mpr ⟨hp, by simp [hpe, he]⟩, hpe⟩

theorem staging_path_exists_fsWrite (fs : ClusterFS) (k name : String) (m : Meta)
    (h : staging_path_exists (fs.map Prod.fst) name = true) :
    staging_path_exists ((fsWrite fs k m).map Prod.fst) name = true := by
  unfold staging_path_exists at h ⊢
  by_cases hd : name = "" ∨ name = "." ∨ name = ".."
  · rw [if_pos hd]
  · rw [if_neg hd] at h ⊢
    rw [List.elem_iff] at h ⊢
    exact fsWrite_keys_mem fs k name m h

theorem fsWrite_key_count_one (fs : ClusterFS) (k : String) (m : Meta) :
    ((fsWrite fs k m).map Prod.fst).count k = 1 := by
  have h0 : k ∉ (fs.filter (fun p => p.1 != k)).map Prod.fst :=
    fsDel_key_not_mem fs k
  simp only [fsWrite, List.map_cons]
  rw [List.count_cons_self]
  rw [List.count_eq_zero.mpr h0]

theorem api_accept_job_success (node : String) (fs : ClusterFS) (metadata : Meta)
    (origin now : String) (tv sv : MVal)
    (hmne : metadata ≠ [])
    (hti : metadata.lookup "title" = some tv) (htt : tv.truthy = true)
    (hts : metadata.lookup "timestamp" = some sv) (hst : sv.truthy = true)
    (hex : staging_path_exists (fs.map Prod.fst) (isoFname metadata) = true) :
    api_accept_job true node fs metadata origin now =
      (fsWrite fs (tv.toStr ++ "-" ++ sv.toStr ++ ".iso-ready")
        (acceptMeta metadata origin now),
       .accepted (pyBasename (tv.toStr ++ "-" ++ sv.toStr ++ ".iso-ready")) node
         (((fsWrite fs (tv.toStr ++ "-" ++ sv.toStr ++ ".iso-ready")
             (acceptMeta metadata origin now)).map Prod.fst).countP
           (nameMatchesStateGlob "iso-ready"))) := by
  have hie : metadata.isEmpty = false := by
    cases metadata
    · exact absurd rfl hmne
    · rfl
  simp only [api_accept_job, hie, hti, hts, htt, hst, hex, Bool.not_true,
    Bool.false_eq_true, ite_false, Bool.or_self]

/-- Claim C4: accept-job is idempotent: under the success conditions
(cluster enabled, truthy title and timestamp, image present in
staging), two successive accept-job calls with identical metadata
leave exactly one `iso-ready` (the spec's image-ready) record for that
title/timestamp, and the second call succeeds with an "accepted"
response — no extra deduplication state involved. -/
theorem accept_job_idempotent (node : String) (fs : ClusterFS) (metadata : Meta)
    (origin now now2 : String) (tv sv : MVal)
    (hmne : metadata ≠ [])
    (hti : metadata.lookup "title" = some tv) (htt : tv.truthy = true)
    (hts : metadata.lookup "timestamp" = some sv) (hst : sv.truthy = true)
    (hex : staging_path_exists (fs.map Prod.fst) (isoFname metadata) = true) :
    (((api_accept_job true node
        (api_accept_job true node fs metadata origin now).1
        metadata origin now2).1.map Prod.fst).count
      (tv.toStr ++ "-" ++ sv.toStr ++ ".iso-ready") = 1) ∧
    (∃ sf q, (api_accept_job true node
        (api_accept_job true node fs metadata origin now).1
        metadata origin now2).2 = .accepted sf node q) := by
  have e1 := api_accept_job_success node fs metadata origin now tv sv
    hmne hti htt hts hst hex
  have h1 : (api_accept_job true node fs metadata origin now).1 =
      fsWrite fs (tv.toStr ++ "-" ++ sv.toStr ++ ".iso-ready")
        (acceptMeta metadata origin now) := by
    rw [e1]
  have hex2 : staging_path_exists
      ((fsWrite fs (tv.toStr ++ "-" ++ sv.toStr ++ ".iso-ready")
        (acceptMeta metadata origin now)).map Prod.fst) (isoFname metadata) = true :=
    staging_path_exists_fsWrite _ _ _ _ hex
  have e2 := api_accept_job_success node
    (fsWrite fs (tv.toStr ++ "-" ++ sv.toStr ++ ".iso-ready")
      (acceptMeta metadata origin now))
    metadata origin now2 tv sv hmne hti htt hts hst hex2
  rw [h1, e2]
  constructor
  · exact fsWrite_key_count_one _ _ _
  · exact ⟨_, _, rfl⟩

theorem lastSplit_none_not_mem (c : Char) (l : List Char)
    (h : lastSplit c l = none) : c ∉ l := by
  induction l with
  | nil => simp
  | cons a rest ih =>
    simp only [lastSplit] at h
    cases h2 : lastSplit c rest with
    | some p => rw [h2] at h; exact Option.noConfusion h
    | none =>
      rw [h2] at h
      simp only [List.mem_cons, not_or]
      constructor
      · intro he
        rw [if_pos he.symm] at h
        exact Option.noConfusion h
      · exact ih h2

theorem lastSplit_some_snd_not_mem (c : Char) (l b aft : List Char)
    (h : lastSplit c l = some (b, aft)) : c ∉ aft := by
  induction l generalizing b aft with
  | nil => exact Option.noConfusion h
  | cons a rest ih =>
    simp only [lastSplit] at h
    cases h2 : lastSplit c rest with
    | some p =>
      rw [h2] at h
      obtain ⟨b2, aft2⟩ := p
      injection h with h3
      injection h3 with _ h4
      rw [← h4]
      exact ih b2 aft2 h2
    | none =>
      rw [h2] at h
      by_cases hac : a = c
      · rw [if_pos hac] at h
        injection h with h3
        injection h3 with _ h4
        rw [← h4]
        exact lastSplit_none_not_mem c rest h2
      · rw [if_neg hac] at h
        exact Option.noConfusion h

theorem pyBasename_no_slash (s : String) : '/' ∉ (pyBasename s).data := by
  unfold pyBasename
  cases h : lastSplit '/' s.data with
  | none => exact lastSplit_none_not_mem _ _ h
  | some p =>
    obtain ⟨b, aft⟩ := p
    exact lastSplit_some_snd_not_mem _ _ _ _ h

theorem isPre_single_not_mem (c : Char) (l : List Char) (h : c ∉ l) :
    isPre [c] l = false := by
  cases l with
  | nil => rfl
  | cons a rest =>
    simp only [List.mem_cons, not_or] at h
    have hb : (c == a) = false := beq_eq_false_iff_ne.mpr h.1
    simp [isPre, hb]

theorem splitSlash_noSlash (l : List Char) (h : '/' ∉ l) : splitSlash l = [l] := by
  induction l with
  | nil => rfl
  | cons a cs ih =>
    simp only [List.mem_cons, not_or] at h
    have ha : ¬a = '/' := fun he => h.1 he.symm
    simp only [splitSlash, ih h.2, if_neg ha]

theorem splitSlash_chunk (chunk rest : List Char) (h : '/' ∉ chunk) :
    splitSlash (chunk ++ '/' :: rest) = chunk :: splitSlash rest := by
  induction chunk with
  | nil => simp [splitSlash]
  | cons a cs ih =>
    simp only [List.mem_cons, not_or] at h
    have ha : ¬a = '/' := fun he => h.1 he.symm
    simp only [List.cons_append, splitSlash, List.append_eq, ih h.2, if_neg ha]

theorem pathComponents_staging (b : String) (hs : '/' ∉ b.data)
    (h1 : b ≠ "") (h2 : b ≠ ".") :
    pathComponents ("/var/tmp/dvd-rips/" ++ b) = ["var", "tmp", "dvd-rips", b] := by
  unfold pathComponents
  have hdata : ("/var/tmp/dvd-rips/" ++ b).data =
      ([] : List Char) ++ '/' :: ("var".data ++ '/' ::
        ("tmp".data ++ '/' :: ("dvd-rips".data ++ '/' :: b.data))) := by
    rw [String.data_append]
    rfl
  rw [hdata, splitSlash_chunk _ _ (by decide), splitSlash_chunk _ _ (by decide),
    splitSlash_chunk _ _ (by decide), splitSlash_chunk _ _ (by decide),
    splitSlash_noSlash _ hs]
  simp [h1, h2]

theorem resolveComps_staging (b : String) (h3 : b ≠ "..") :
    resolveComps ["var", "tmp", "dvd-rips", b] = ["var", "tmp", "dvd-rips", b] := by
  simp [resolveComps, h3]

/-- Claim C9 counterexample: an accept-job request whose metadata
carries `iso_path = ".."` is ACCEPTED (the joined path
`/var/tmp/dvd-rips/..` exists — it is the staging directory's parent)
and the created record stores that path, which resolves to `/var/tmp`,
NOT to a path directly inside the staging directory. -/
theorem accept_job_dotdot_counterexample :
    (api_accept_job true "nodeB" []
        [("title", .str "Movie"), ("timestamp", .str "100"), ("iso_path", .str "..")]
        "nodeA" "T").2 =
      .accepted "Movie-100.iso-ready" "nodeB" 1 ∧
    (readMetaD (api_accept_job true "nodeB" []
        [("title", .str "Movie"), ("timestamp", .str "100"), ("iso_path", .str "..")]
        "nodeA" "T").1 "Movie-100.iso-ready").lookup "iso_path" =
      some (.str "/var/tmp/dvd-rips/..") ∧
    insideStaging "/var/tmp/dvd-rips/.." = false ∧
    resolveComps (pathComponents "/var/tmp/dvd-rips/..") = ["var", "tmp"] := by
  decide

/-- Claim C9 (amended): the image path stored in the record created by
accept-job is always `STAGING_DIR` joined with the slash-free basename
of the sender-supplied path; whenever that basename is an ordinary
file name — nonempty and neither "." nor ".." — the stored path lies
directly inside the staging directory.  (For the degenerate basenames
"", "." and ".." it denotes the staging directory itself or its
parent, as the counterexample shows.) -/
theorem accept_iso_path_spec (metadata : Meta) (origin now : String) (p : String)
    (hp : metadata.lookup "iso_path" = some (.str p)) (hpt : p ≠ "")
    (h1 : pyBasename p ≠ "") (h2 : pyBasename p ≠ ".") (h3 : pyBasename p ≠ "..") :
    (acceptMeta metadata origin now).lookup "iso_path" =
      some (.str ("/var/tmp/dvd-rips/" ++ pyBasename p)) ∧
    '/' ∉ (pyBasename p).data ∧
    insideStaging ("/var/tmp/dvd-rips/" ++ pyBasename p) = true := by
  have hfn : isoFname metadata = pyBasename p := by
    unfold isoFname
    rw [hp]
    simp [MVal.truthy, MVal.toStr, hpt]
  have hnoslash := pyBasename_no_slash p
  have hjoin : pyJoin STAGING_DIR (pyBasename p) =
      "/var/tmp/dvd-rips/" ++ pyBasename p :=
    pyJoin_staging_relative _ (isPre_single_not_mem _ _ hnoslash)
  refine ⟨?_, hnoslash, ?_⟩
  · unfold acceptMeta
    rw [metaSet_lookup_ne _ _ _ _ (by decide), metaSet_lookup_ne _ _ _ _ (by decide),
      metaSet_lookup_ne _ _ _ _ (by decide), metaSet_lookup_self, hfn, hjoin]
  · unfold insideStaging
    rw [pathComponents_staging _ hnoslash h1 h2, resolveComps_staging _ h3]
    simp

/-- Claim C1 counterexample: cancelling an existing `iso-creating`
record (revert target: delete) on a system where `os.remove` of the
record file itself fails (e.g. a permission error on the staging
directory) returns failure "Failed to update state file" and leaves
the record IN ITS ORIGINAL IN-FLIGHT STAGE — the claim as stated
admits no such outcome. -/
theorem cancel_queue_item_remove_failure_counterexample :
    (cancel_queue_item
        { files := ["/var/tmp/dvd-rips/Movie-100.iso-creating"],
          metaOf := fun _ => ⟨none, none⟩, lockContent := fun _ => "",
          procAlive := fun _ => false, removeFails := fun _ => true,
          renameFails := fun _ => false, killRes := fun _ => .ok }
        "Movie-100.iso-creating" false).2.1 = false ∧
    "/var/tmp/dvd-rips/Movie-100.iso-creating" ∈
      (cancel_queue_item
        { files := ["/var/tmp/dvd-rips/Movie-100.iso-creating"],
          metaOf := fun _ => ⟨none, none⟩, lockContent := fun _ => "",
          procAlive := fun _ => false, removeFails := fun _ => true,
          renameFails := fun _ => false, killRes := fun _ => .ok }
        "Movie-100.iso-creating" false).1.files := by
  decide

/-- Claim C1 witness: cancelling a concrete `encoding` record whose
partial-MKV removal FAILS still ends with the record renamed to
`iso-ready`. -/
theorem cancel_queue_item_terminal_witness :
    (cancel_queue_item
        { files := ["/var/tmp/dvd-rips/Movie-100.encoding",
                    "/run/dvd-ripper/encoder.lock",
                    "/var/tmp/dvd-rips/Movie-100.mkv"],
          metaOf := fun _ => ⟨none, some "/var/tmp/dvd-rips/Movie-100.mkv"⟩,
          lockContent := fun _ => "500", procAlive := fun _ => true,
          removeFails := fun q => q == "/var/tmp/dvd-rips/Movie-100.mkv",
          renameFails := fun _ => false, killRes := fun _ => .ok }
        ("Movie-100" ++ "." ++ "encoding") false).2.1 = true ∧
    ("/var/tmp/dvd-rips/" ++ ("Movie-100" ++ "." ++ "encoding")) ∉
      (cancel_queue_item
        { files := ["/var/tmp/dvd-rips/Movie-100.encoding",
                    "/run/dvd-ripper/encoder.lock",
                    "/var/tmp/dvd-rips/Movie-100.mkv"],
          metaOf := fun _ => ⟨none, some "/var/tmp/dvd-rips/Movie-100.mkv"⟩,
          lockContent := fun _ => "500", procAlive := fun _ => true,
          removeFails := fun q => q == "/var/tmp/dvd-rips/Movie-100.mkv",
          renameFails := fun _ => false, killRes := fun _ => .ok }
        ("Movie-100" ++ "." ++ "encoding") false).1.files ∧
    (∀ t, (StateCfg.mk (some "encoder") (some "iso-ready")).revert_to = some t →
      (("/var/tmp/dvd-rips/" ++ "Movie-100") ++ "." ++ t) ∈
        (cancel_queue_item
          { files := ["/var/tmp/dvd-rips/Movie-100.encoding",
                      "/run/dvd-ripper/encoder.lock",
                      "/var/tmp/dvd-rips/Movie-100.mkv"],
            metaOf := fun _ => ⟨none, some "/var/tmp/dvd-rips/Movie-100.mkv"⟩,
            lockContent := fun _ => "500", procAlive := fun _ => true,
            removeFails := fun q => q == "/var/tmp/dvd-rips/Movie-100.mkv",
            renameFails := fun _ => false, killRes := fun _ => .ok }
          ("Movie-100" ++ "." ++ "encoding") false).1.files) :=
  cancel_queue_item_terminal
    { files := ["/var/tmp/dvd-rips/Movie-100.encoding",
                "/run/dvd-ripper/encoder.lock",
                "/var/tmp/dvd-rips/Movie-100.mkv"],
      metaOf := fun _ => ⟨none, some "/var/tmp/dvd-rips/Movie-100.mkv"⟩,
      lockContent := fun _ => "500", procAlive := fun _ => true,
      removeFails := fun q => q == "/var/tmp/dvd-rips/Movie-100.mkv",
      renameFails := fun _ => false, killRes := fun _ => .ok }
    "Movie-100" "encoding" ⟨some "encoder", some "iso-ready"⟩ false
    (by decide) (by decide) (by decide) (by decide) (by decide) (by decide)
    (by decide) (by decide)

/-- Claim C3 witness: a concrete shadow record completed successfully. -/
theorem job_complete_spec_witness :
    (distributedMatches
        [("Movie-100.distributed-to-nodeB", some [("is_remote_job", MVal.boolean true)])]
        "Movie" "100" = [] →
      api_job_complete
        [("Movie-100.distributed-to-nodeB", some [("is_remote_job", MVal.boolean true)])]
        "Movie" "100" true (some "/out/Movie.mkv") "T" =
        ([("Movie-100.distributed-to-nodeB", some [("is_remote_job", MVal.boolean true)])],
         ⟨"ok",
          "No matching distributed state file found (may have been cleaned up)",
          none⟩)) ∧
    (∀ m rest, distributedMatches
        [("Movie-100.distributed-to-nodeB", some [("is_remote_job", MVal.boolean true)])]
        "Movie" "100" = m :: rest →
      ((api_job_complete
          [("Movie-100.distributed-to-nodeB", some [("is_remote_job", MVal.boolean true)])]
          "Movie" "100" true (some "/out/Movie.mkv") "T").2.status = "ok" ∧
        m ∉ (api_job_complete
          [("Movie-100.distributed-to-nodeB", some [("is_remote_job", MVal.boolean true)])]
          "Movie" "100" true (some "/out/Movie.mkv") "T").1.map Prod.fst) ∧
      (true = true →
        ((api_job_complete
            [("Movie-100.distributed-to-nodeB", some [("is_remote_job", MVal.boolean true)])]
            "Movie" "100" true (some "/out/Movie.mkv") "T").1.lookup
            ("Movie" ++ "-" ++ "100" ++ ".encoded-ready")).isSome = true ∧
          (readMetaD (api_job_complete
              [("Movie-100.distributed-to-nodeB", some [("is_remote_job", MVal.boolean true)])]
              "Movie" "100" true (some "/out/Movie.mkv") "T").1
              ("Movie" ++ "-" ++ "100" ++ ".encoded-ready")).lookup "mkv_path" =
            some (jsonOfOptStr (some "/out/Movie.mkv"))) ∧
      (true = false →
        ((api_job_complete
            [("Movie-100.distributed-to-nodeB", some [("is_remote_job", MVal.boolean true)])]
            "Movie" "100" true (some "/out/Movie.mkv") "T").1.lookup
            ("Movie" ++ "-" ++ "100" ++ ".iso-ready")).isSome = true ∧
          (readMetaD (api_job_complete
              [("Movie-100.distributed-to-nodeB", some [("is_remote_job", MVal.boolean true)])]
              "Movie" "100" true (some "/out/Movie.mkv") "T").1
              ("Movie" ++ "-" ++ "100" ++ ".iso-ready")).lookup "is_remote_job" = none ∧
          (readMetaD (api_job_complete
              [("Movie-100.distributed-to-nodeB", some [("is_remote_job", MVal.boolean true)])]
              "Movie" "100" true (some "/out/Movie.mkv") "T").1
              ("Movie" ++ "-" ++ "100" ++ ".iso-ready")).lookup "origin_node" = none)) :=
  job_complete_spec
    [("Movie-100.distributed-to-nodeB", some [("is_remote_job", MVal.boolean true)])]
    "Movie" "100" true (some "/out/Movie.mkv") "T" (by decide) (by decide)

/-- Claim C4 witness: two identical accept-job calls on a concrete
staging directory holding the copied image. -/
theorem accept_job_idempotent_witness :
    (((api_accept_job true "nodeB"
        (api_accept_job true "nodeB" [("Movie-100.iso", none)]
          [("title", MVal.str "Movie"), ("timestamp", MVal.str "100"),
           ("iso_path", MVal.str "/mnt/out/Movie-100.iso")] "nodeA" "T1").1
        [("title", MVal.str "Movie"), ("timestamp", MVal.str "100"),
         ("iso_path", MVal.str "/mnt/out/Movie-100.iso")] "nodeA" "T2").1.map
        Prod.fst).count
      ((MVal.str "Movie").toStr ++ "-" ++ (MVal.str "100").toStr ++ ".iso-ready") = 1) ∧
    (∃ sf q, (api_accept_job true "nodeB"
        (api_accept_job true "nodeB" [("Movie-100.iso", none)]
          [("title", MVal.str "Movie"), ("timestamp", MVal.str "100"),
           ("iso_path", MVal.str "/mnt/out/Movie-100.iso")] "nodeA" "T1").1
        [("title", MVal.str "Movie"), ("timestamp", MVal.str "100"),
         ("iso_path", MVal.str "/mnt/out/Movie-100.iso")] "nodeA" "T2").2 =
      .accepted sf "nodeB" q) :=
  accept_job_idempotent "nodeB" [("Movie-100.iso", none)]
    [("title", MVal.str "Movie"), ("timestamp", MVal.str "100"),
     ("iso_path", MVal.str "/mnt/out/Movie-100.iso")]
    "nodeA" "T1" "T2" (MVal.str "Movie") (MVal.str "100")
    (by decide) (by decide) (by decide) (by decide) (by decide) (by decide)

/-- Claim C9 witness: an ordinary absolute source path stores a path
directly inside staging. -/
theorem accept_iso_path_spec_witness :
    (acceptMeta [("iso_path", MVal.str "/mnt/out/Movie-100.iso")] "nodeA" "T").lookup
        "iso_path" =
      some (.str ("/var/tmp/dvd-rips/" ++ pyBasename "/mnt/out/Movie-100.iso")) ∧
    '/' ∉ (pyBasename "/mnt/out/Movie-100.iso").data ∧
    insideStaging ("/var/tmp/dvd-rips/" ++ pyBasename "/mnt/out/Movie-100.iso") = true :=
  accept_iso_path_spec [("iso_path", MVal.str "/mnt/out/Movie-100.iso")] "nodeA" "T"
    "/mnt/out/Movie-100.iso" (by decide) (by decide) (by decide) (by decide) (by decide)

/-- Claim C10 witness: requesting page 5 of an empty queue with the
default page size. -/
theorem get_queue_items_pagination_witness :
    ∃ r : PagedQueue, get_queue_items [] (some 5) none = .paged r ∧
      1 ≤ r.page ∧ r.page ≤ r.total_pages ∧
      (([] : List QItem) = [] → r.total_pages = 1) ∧
      0 < r.per_page ∧ (r.items.length : Int) ≤ r.per_page :=
  get_queue_items_pagination [] 5 none (Or.inl rfl)
